import Mathlib

/-!
Verification development for the multi-model review pipeline
(command builder, process runner, output normalizer, aggregator/gate).

The JavaScript sources are shallowly embedded: JSON values become an
inductive type `JVal`, the dynamic-language operations (member access,
truthiness, property assignment) become total Lean functions, and every
fallible code path (a JavaScript `throw`) becomes an `Option`/`Except`
result.  Numbers are kept as their source literals: no claim below
compares numeric magnitudes, only presence and string equality.
-/

namespace Pipeline

/-- Model of a JavaScript JSON value (the result of `JSON.parse`).
Number literals are stored verbatim. -/
inductive JVal where
  | null : JVal
  | bool : Bool → JVal
  | num : String → JVal
  | str : String → JVal
  | arr : List JVal → JVal
  | obj : List (String × JVal) → JVal

/-- Zero test for a number literal: every digit of the mantissa is 0
(exponent ignored), so "0", "-0.00", "0e5" are zero. Used only for
JavaScript truthiness of numbers. -/
def numLitIsZero (lit : String) : Bool :=
  let mantissa := lit.toList.takeWhile (fun c => c ≠ 'e' ∧ c ≠ 'E')
  mantissa.all (fun c => c = '0' ∨ c = '-' ∨ c = '+' ∨ c = '.')

/-- JavaScript truthiness of a value. -/
def truthy : JVal → Bool
  | .null => false
  | .bool b => b
  | .num lit => !(numLitIsZero lit)
  | .str s => s ≠ ""
  | .arr _ => true
  | .obj _ => true

/-- Truthiness of a possibly-absent value (`undefined` is falsy). -/
def truthyOpt : Option JVal → Bool
  | none => false
  | some v => truthy v

/-- Look a key up in an object field list; later bindings shadow earlier
ones, as in `JSON.parse`. -/
def fieldsGet (fields : List (String × JVal)) (key : String) : Option JVal :=
  match fields.reverse.find? (fun kv => kv.1 = key) with
  | some kv => some kv.2
  | none => none

/-- JavaScript member access `v.key`: `undefined` (here `none`) on
missing keys and on every non-object value.  Accessing a member of
`null` throws in JavaScript; that case is handled separately by
`jgetN` where the distinction matters. -/
def jget : JVal → String → Option JVal
  | .obj fields, key => fieldsGet fields key
  | _, _ => none

/-- Member access that models the JavaScript `TypeError` on `null`
(`none` result means the access threw). -/
def jgetN : JVal → String → Option (Option JVal)
  | .null, _ => none
  | .obj fields, key => some (fieldsGet fields key)
  | _, _ => some none

/-- Property assignment on an object field list: overwrite the last
binding in place, or append a new one (JavaScript key-order
semantics). -/
def fieldsSet (fields : List (String × JVal)) (key : String) (v : JVal) :
    List (String × JVal) :=
  if (fields.find? (fun kv => kv.1 = key)).isSome then
    fields.map (fun kv => if kv.1 = key then (key, v) else kv)
  else
    fields ++ [(key, v)]

/-- Property assignment `target.key = v`.  On a non-object target this
models the strict-mode `TypeError` (ES modules are strict), returning
`none`.  (JavaScript arrays do accept expando properties; array-valued
report roots and sub-records are outside the modelled domain and are
mapped to the throwing case.) -/
def jset : JVal → String → JVal → Option JVal
  | .obj fields, key, v => some (.obj (fieldsSet fields key v))
  | _, _, _ => none

/-- Property deletion; a no-op when the key is absent or the target is
not an object (`delete` does not throw on missing keys). -/
def jdel : JVal → String → JVal
  | .obj fields, key => .obj (fields.filter (fun kv => kv.1 ≠ key))
  | v, _ => v

/-- Sequencing of fallible steps (`Option.bind`, kept as its own
function so long repair chains stay linear for the code generator). -/
def obind (x : Option JVal) (f : JVal → Option JVal) : Option JVal :=
  match x with
  | none => none
  | some d => f d

/-- JavaScript string coercion `String(v)` (template-literal
interpolation), modelled for the value shapes the pipeline meets.
Number literals are emitted verbatim rather than re-canonicalized. -/
def jsToString : JVal → String
  | .null => "null"
  | .bool true => "true"
  | .bool false => "false"
  | .num lit => lit
  | .str s => s
  | .arr xs => String.intercalate "," (xs.map (fun v =>
      match v with
      | .null => ""
      | .str s => s
      | .num lit => lit
      | .bool true => "true"
      | .bool false => "false"
      | .arr _ => "..."
      | .obj _ => "[object Object]"))
  | .obj _ => "[object Object]"

/-- Escape one character for a JSON string literal. -/
def jsonEscapeChar (c : Char) : String :=
  if c = '"' then "\\\""
  else if c = '\\' then "\\\\"
  else if c = '\n' then "\\n"
  else if c = '\r' then "\\r"
  else if c = '\t' then "\\t"
  else String.singleton c

/-- Serialize a value as compact JSON, fuelled for structural
recursion over the nesting depth (models `JSON.stringify(v)`; number
literals are emitted verbatim rather than re-canonicalized). -/
def jsonStringifyFuel : Nat → JVal → String
  | _, .null => "null"
  | _, .bool true => "true"
  | _, .bool false => "false"
  | _, .num lit => lit
  | _, .str s => "\"" ++ String.join (s.toList.map jsonEscapeChar) ++ "\""
  | 0, .arr _ => ""
  | 0, .obj _ => ""
  | n + 1, .arr xs =>
      "[" ++ String.intercalate "," (xs.map (jsonStringifyFuel n)) ++ "]"
  | n + 1, .obj fields =>
      "\x7b" ++ String.intercalate ","
        (fields.map (fun kv =>
          "\"" ++ String.join (kv.1.toList.map jsonEscapeChar) ++ "\":" ++
            jsonStringifyFuel n kv.2)) ++ "\x7d"

/-- `JSON.stringify(v)`: no value handled by the pipeline approaches
the fixed nesting-depth fuel. -/
def jsonStringify (v : JVal) : String := jsonStringifyFuel 4096 v

/-! ### A model of `JSON.parse`

A strict JSON parser over `List Char`, fuelled on the input length so
that all recursion is structural and kernel-reducible.  It follows the
JSON grammar that `JSON.parse` accepts: the four whitespace
characters, strict number syntax, double-quoted strings with the
standard escapes, and rejection of unescaped control characters and of
trailing garbage. -/

/-- JSON whitespace (space, tab, line feed, carriage return). -/
def isJsonWs (c : Char) : Bool :=
  c = ' ' ∨ c = '\t' ∨ c = '\n' ∨ c = '\r'

/-- Drop leading JSON whitespace. -/
def skipWs : List Char → List Char
  | [] => []
  | c :: cs => if isJsonWs c then skipWs cs else c :: cs

/-- Decimal digit test. -/
def isDigitC (c : Char) : Bool := '0' ≤ c ∧ c ≤ '9'

/-- Hexadecimal digit test. -/
def isHexC (c : Char) : Bool :=
  isDigitC c ∨ ('a' ≤ c ∧ c ≤ 'f') ∨ ('A' ≤ c ∧ c ≤ 'F')

/-- Value of one hexadecimal digit. -/
def hexVal (c : Char) : Nat :=
  if isDigitC c then c.toNat - '0'.toNat
  else if 'a' ≤ c ∧ c ≤ 'f' then c.toNat - 'a'.toNat + 10
  else c.toNat - 'A'.toNat + 10

/-- Decode one escape character of a JSON string literal (the simple
escapes; `\u` is handled separately). -/
def unescapeSimple (e : Char) : Option Char :=
  if e = '"' then some '"'
  else if e = '\\' then some '\\'
  else if e = '/' then some '/'
  else if e = 'b' then some (Char.ofNat 8)
  else if e = 'f' then some (Char.ofNat 12)
  else if e = 'n' then some '\n'
  else if e = 'r' then some '\r'
  else if e = 't' then some '\t'
  else none

/-- Parse the remainder of a JSON string literal (the opening quote
already consumed), handling the escape sequences `JSON.parse` accepts
and rejecting unescaped control characters. -/
def parseStrBody : List Char → Option (String × List Char)
  | [] => none
  | '"' :: rest => some ("", rest)
  | '\\' :: 'u' :: a :: b :: c :: d :: rest =>
      if isHexC a ∧ isHexC b ∧ isHexC c ∧ isHexC d then
        match parseStrBody rest with
        | some (s, r) =>
            some (String.singleton (Char.ofNat
              (((hexVal a * 16 + hexVal b) * 16 + hexVal c) * 16 + hexVal d))
              ++ s, r)
        | none => none
      else none
  | '\\' :: e :: rest =>
      match unescapeSimple e with
      | some c =>
          match parseStrBody rest with
          | some (s, r) => some (String.singleton c ++ s, r)
          | none => none
      | none => none
  | c :: rest =>
      if c.toNat < 32 then none
      else
        match parseStrBody rest with
        | some (s, r) => some (String.singleton c ++ s, r)
        | none => none

/-- Parse a strict JSON number, returning the consumed lexeme. -/
def parseNumLit (cs : List Char) : Option (String × List Char) :=
  let sign : List Char × List Char :=
    match cs with
    | '-' :: rest => (['-'], rest)
    | _ => ([], cs)
  let intPart : Option (List Char × List Char) :=
    match sign.2 with
    | '0' :: rest => some (['0'], rest)
    | c :: rest =>
        if isDigitC c ∧ c ≠ '0' then
          some (c :: rest.takeWhile isDigitC, rest.dropWhile isDigitC)
        else none
    | [] => none
  match intPart with
  | none => none
  | some (ip, afterInt) =>
      let fracPart : Option (List Char × List Char) :=
        match afterInt with
        | '.' :: d :: rest =>
            if isDigitC d then
              some ('.' :: d :: rest.takeWhile isDigitC,
                    rest.dropWhile isDigitC)
            else none
        | '.' :: [] => none
        | _ => some ([], afterInt)
      match fracPart with
      | none => none
      | some (fp, afterFrac) =>
          let expPart : Option (List Char × List Char) :=
            match afterFrac with
            | e :: rest =>
                if e = 'e' ∨ e = 'E' then
                  let signedRest : List Char × List Char :=
                    match rest with
                    | s :: rest2 =>
                        if s = '+' ∨ s = '-' then ([e, s], rest2)
                        else ([e], rest)
                    | [] => ([e], [])
                  match signedRest.2 with
                  | d :: rest3 =>
                      if isDigitC d then
                        some (signedRest.1 ++ d :: rest3.takeWhile isDigitC,
                              rest3.dropWhile isDigitC)
                      else none
                  | [] => none
                else some ([], afterFrac)
            | [] => some ([], afterFrac)
          match expPart with
          | none => none
          | some (ep, rest) =>
              some (String.mk (sign.1 ++ ip ++ fp ++ ep), rest)

/-- List-literal prefix test. -/
def begins : List Char → List Char → Bool
  | [], _ => true
  | _ :: _, [] => false
  | p :: ps, c :: cs => p = c ∧ begins ps cs

mutual

/-- Fuelled JSON value parser; fuel bounds the nesting depth. -/
def parseVal : Nat → List Char → Option (JVal × List Char)
  | 0, _ => none
  | fuel + 1, cs0 =>
    match skipWs cs0 with
    | [] => none
    | c :: cs =>
      if c = 'n' then
        if begins ['u', 'l', 'l'] cs then some (.null, cs.drop 3) else none
      else if c = 't' then
        if begins ['r', 'u', 'e'] cs then some (.bool true, cs.drop 3)
        else none
      else if c = 'f' then
        if begins ['a', 'l', 's', 'e'] cs then some (.bool false, cs.drop 4)
        else none
      else if c = '"' then
        match parseStrBody cs with
        | some (s, rest) => some (.str s, rest)
        | none => none
      else if c = '[' then
        match skipWs cs with
        | ']' :: rest => some (.arr [], rest)
        | _ => parseElems fuel cs []
      else if c = '\x7b' then
        match skipWs cs with
        | '\x7d' :: rest => some (.obj [], rest)
        | _ => parseMembers fuel cs []
      else
        match parseNumLit (c :: cs) with
        | some (lit, rest) => some (.num lit, rest)
        | none => none

/-- Parse the remaining elements of a non-empty JSON array. -/
def parseElems : Nat → List Char → List JVal → Option (JVal × List Char)
  | 0, _, _ => none
  | fuel + 1, cs, acc =>
    match parseVal fuel cs with
    | none => none
    | some (v, rest) =>
      match skipWs rest with
      | ',' :: rest2 => parseElems fuel rest2 (acc ++ [v])
      | ']' :: rest2 => some (.arr (acc ++ [v]), rest2)
      | _ => none

/-- Parse the remaining members of a non-empty JSON object. -/
def parseMembers : Nat → List Char →
    List (String × JVal) → Option (JVal × List Char)
  | 0, _, _ => none
  | fuel + 1, cs, acc =>
    match skipWs cs with
    | '"' :: cs2 =>
      match parseStrBody cs2 with
      | none => none
      | some (key, rest) =>
        match skipWs rest with
        | ':' :: rest2 =>
          match parseVal fuel rest2 with
          | none => none
          | some (v, rest3) =>
            match skipWs rest3 with
            | ',' :: rest4 => parseMembers fuel rest4 (acc ++ [(key, v)])
            | '\x7d' :: rest4 => some (.obj (acc ++ [(key, v)]), rest4)
            | _ => none
        | _ => none
    | _ => none

end

/-- Model of `JSON.parse(s)`: parse one value and require that only
whitespace remains. -/
def jsonParse (s : String) : Option JVal :=
  let cs := s.toList
  match parseVal (cs.length + 1) cs with
  | some (v, rest) => if skipWs rest = [] then some v else none
  | none => none

/-! ### String utilities mirroring the JavaScript string methods used
by the pipeline sources. -/

/-- JavaScript `String.prototype.trim` whitespace (the characters that
occur in the pipeline's inputs). -/
def isJsWsChar (c : Char) : Bool :=
  c = ' ' ∨ c = '\t' ∨ c = '\n' ∨ c = '\r' ∨ c = Char.ofNat 11 ∨
    c = Char.ofNat 12

/-- Model of `s.trim()`. -/
def jsTrim (s : String) : String :=
  String.mk (((s.toList.dropWhile isJsWsChar).reverse.dropWhile
    isJsWsChar).reverse)

/-- Model of `s.split('\n')`. -/
def splitNl (s : String) : List String :=
  (s.toList.splitOn '\n').map String.mk

/-- Model of `s.toLowerCase()` for ASCII. -/
def jsLower (s : String) : String := String.mk (s.toList.map Char.toLower)

/-- First index of a character (`s.indexOf(c)`), `none` for -1. -/
def idxOfC (cs : List Char) (c : Char) : Option Nat :=
  cs.findIdx? (fun x => x = c)

/-- Last index of a character (`s.lastIndexOf(c)`), `none` for -1. -/
def lastIdxOfC (cs : List Char) (c : Char) : Option Nat :=
  match idxOfC cs.reverse c with
  | some i => some (cs.length - 1 - i)
  | none => none

/-- First index of a substring (`s.indexOf(sub)` for nonempty `sub`). -/
def findSub (needle : List Char) (hay : List Char) : Option Nat :=
  match hay with
  | [] => if needle = [] then some 0 else none
  | _ :: rest =>
      if begins needle hay then some 0
      else
        match findSub needle rest with
        | some i => some (i + 1)
        | none => none

/-- Model of `s.includes(sub)`. -/
def strIncludes (s : String) (sub : String) : Bool :=
  (findSub sub.toList s.toList).isSome

/-- JavaScript falsy-or on environment strings: `env.X || dflt`
(an unset variable and the empty string both fall through). -/
def envOr (v : Option String) (dflt : String) : String :=
  match v with
  | some s => if s ≠ "" then s else dflt
  | none => dflt

/-- Model of `parseInt(s, 10)`: skip leading whitespace, optional
sign, then leading decimal digits; `none` models `NaN`. -/
def parseIntJS (s : String) : Option Int :=
  let cs := s.toList.dropWhile isJsWsChar
  let signedPart : Bool × List Char :=
    match cs with
    | '-' :: rest => (true, rest)
    | '+' :: rest => (false, rest)
    | _ => (false, cs)
  let digits := signedPart.2.takeWhile isDigitC
  if digits = [] then none
  else
    let n : Nat := digits.foldl (fun acc c => acc * 10 + (c.toNat - 48)) 0
    some (if signedPart.1 then -(n : Int) else (n : Int))

/-! ### normalize-json.js: extraction helpers -/

/-- The check `p && typeof p === 'object'`: true exactly for objects
and arrays (`null` is falsy, primitives have other `typeof`). -/
def isObjOrArr : JVal → Bool
  | .obj _ => true
  | .arr _ => true
  | _ => false

/-- Object test (`typeof v === 'object' && v !== null` together with
not being an array where the source discriminates). -/
def isObj : JVal → Bool
  | .obj _ => true
  | _ => false

/-- Model of `tryParseJSON` (normalize-json.js): `JSON.parse` with the
failure swallowed into `none`. -/
def tryParseJSON (text : String) : Option JVal := jsonParse text

/-- Split point of the whitespace run following a fence tag, as forced
by the regex piece `\s*[\r\n]+`: the run must contain a newline, the
graceful split puts `\s*` before the run's last newline chunk and
`[\r\n]+` consumes that chunk, so the capture starts after the last
newline of the leading whitespace run. `none` when the run contains no
newline (the regex fails at this position). -/
def fenceWsSplit (cs : List Char) : Option (List Char) :=
  let run := cs.takeWhile isJsonWs
  let rest := cs.drop run.length
  if run.any (fun c => c = '\n' ∨ c = '\r') then
    let tailWs := (run.reverse.takeWhile (fun c => ¬(c = '\n' ∨ c = '\r'))).reverse
    some (tailWs ++ rest)
  else none

/-- Scan for the first position where the fenced-block regex
`tag\s*[\r\n]+([\s\S]*?)` ``` matches (case-insensitive tag), and
return its lazy capture: the text up to the first subsequent
``` fence. -/
def fenceMatch (tag : List Char) : List Char → Option (List Char)
  | [] => none
  | c :: rest =>
      if begins tag ((c :: rest).map Char.toLower) then
        match fenceWsSplit ((c :: rest).drop tag.length) with
        | some afterWs =>
            match findSub ['`', '`', '`'] afterWs with
            | some i => some (afterWs.take i)
            | none => fenceMatch tag rest
        | none => fenceMatch tag rest
      else fenceMatch tag rest

/-- One step of the balanced-slice scanner shared by
`extractJSONFromText` and `extractJSON`: walk the text from the start
character, tracking depth, string state and escape state exactly as
the source loops do, and return the index (relative to the scan start)
where depth returns to zero at the expected closing character. -/
def balancedEndFrom (endChar : Char) :
    List Char → Int → Bool → Bool → Nat → Option Nat
  | [], _, _, _, _ => none
  | ch :: rest, depth, inString, escaped, i =>
      if escaped then balancedEndFrom endChar rest depth inString false (i + 1)
      else if ch = '\\' then
        balancedEndFrom endChar rest depth inString true (i + 1)
      else if ch = '"' then
        balancedEndFrom endChar rest depth (!inString) false (i + 1)
      else if inString then
        balancedEndFrom endChar rest depth inString false (i + 1)
      else if ch = '\x7b' ∨ ch = '[' then
        balancedEndFrom endChar rest (depth + 1) inString false (i + 1)
      else if ch = '\x7d' ∨ ch = ']' then
        if depth - 1 = 0 ∧ ch = endChar then some i
        else balancedEndFrom endChar rest (depth - 1) inString false (i + 1)
      else balancedEndFrom endChar rest depth inString false (i + 1)

/-- Locate the first balanced JSON object/array slice of a text: the
start index, and the end index of the matching close, exactly per the
source's `firstBrace`/`firstBracket` selection. -/
def firstBalancedSlice (cs : List Char) : Option (List Char) :=
  let firstBrace := idxOfC cs '\x7b'
  let firstBracket := idxOfC cs '['
  let startEnd : Option (Nat × Char) :=
    match firstBrace, firstBracket with
    | some b, some k => if b < k then some (b, '\x7d') else some (k, ']')
    | some b, none => some (b, '\x7d')
    | none, some k => some (k, ']')
    | none, none => none
  match startEnd with
  | none => none
  | some (start, endChar) =>
      match balancedEndFrom endChar (cs.drop start) 0 false false 0 with
      | some relEnd => some ((cs.drop start).take (relEnd + 1))
      | none => none

/-- The balanced-slice step (3) of `extractJSONFromText`. -/
def extractTextStep3 (text : String) : Option JVal :=
  match firstBalancedSlice text.toList with
  | some slice =>
      match tryParseJSON (String.mk slice) with
      | some p => if isObjOrArr p then some p else none
      | none => none
  | none => none

/-- The plain-fence step of `extractJSONFromText`, falling back to the
balanced-slice result. -/
def extractFromFenceAny (text : String) (step3 : Option JVal) :
    Option JVal :=
  match fenceMatch "```".toList text.toList with
  | some body =>
      match tryParseJSON (String.mk body) with
      | some p => if isObjOrArr p then some p else step3
      | none => step3
  | none => step3

/-- The fence and balanced-slice fallbacks of `extractJSONFromText`. -/
def extractJSONFromTextRest (text : String) : Option JVal :=
  let step3 := extractTextStep3 text
  match fenceMatch "```json".toList text.toList with
  | some body =>
      match tryParseJSON (String.mk body) with
      | some p =>
          if isObjOrArr p then some p
          else extractFromFenceAny text step3
      | none => extractFromFenceAny text step3
  | none => extractFromFenceAny text step3

/-- Model of `extractJSONFromText` (normalize-json.js lines 29-74):
whole-text parse, then fenced blocks, then the first balanced slice;
`none` models the `throw new Error('No JSON found in text')`. -/
def extractJSONFromText (text : String) : Option JVal :=
  match tryParseJSON text with
  | some w =>
      if isObjOrArr w then some w
      else extractJSONFromTextRest text
  | none => extractJSONFromTextRest text

/-! ### normalize-json.js: truncation recovery -/

/-- The depth/string scan of `attemptJSONRecovery` (lines 337-361),
returning the final depth and in-string state. -/
def recoveryScan : List Char → Int → Bool → Bool → Int × Bool
  | [], depth, inString, _ => (depth, inString)
  | ch :: rest, depth, inString, escapeNext =>
      if escapeNext then recoveryScan rest depth inString false
      else if ch = '\\' then recoveryScan rest depth inString true
      else if ch = '"' ∧ ¬inString then recoveryScan rest depth true false
      else if ch = '"' ∧ inString then recoveryScan rest depth false false
      else if ¬inString then
        if ch = '\x7b' ∨ ch = '[' then
          recoveryScan rest (depth + 1) inString false
        else if ch = '\x7d' ∨ ch = ']' then
          recoveryScan rest (depth - 1) inString false
        else recoveryScan rest depth inString false
      else recoveryScan rest depth inString false

/-- `s.lastIndexOf(c)` as an integer (-1 when absent). -/
def lastIdxInt (cs : List Char) (c : Char) : Int :=
  match lastIdxOfC cs c with
  | some i => (i : Int)
  | none => -1

/-- The closing loop of `attemptJSONRecovery` (lines 380-385): append
one closing bracket per open depth level, choosing a brace whenever
the last `\x7b` occurs after the last `[` in the text so far. -/
def recoveryCloseLoop : Nat → List Char → List Char
  | 0, r => r
  | n + 1, r =>
      let needsBrace := lastIdxInt r '\x7b' > lastIdxInt r '['
      recoveryCloseLoop n (r ++ [if needsBrace then '\x7d' else ']'])

/-- The string-repair phase of `attemptJSONRecovery`: close an open
string, patch a trailing separator (the last character of the trimmed
text decides, but the mutation applies to the untrimmed text, as in
the source), then append closing brackets for the remaining depth. -/
def recoveryRepair (jsonStr : String) : String :=
  let scan := recoveryScan jsonStr.toList 0 false false
  let recovered := jsonStr.toList ++ (if scan.2 then ['"'] else [])
  let lastChar := ((jsTrim (String.mk recovered)).toList).getLast?
  let recovered2 :=
    if lastChar = some ':' then recovered ++ "null".toList
    else if lastChar = some ',' then recovered.dropLast
    else recovered
  String.mk (recoveryCloseLoop scan.1.toNat recovered2)

/-- Model of `attemptJSONRecovery` (lines 331-400): parse the repaired
text; on failure return the synthetic error object carrying the first
500 characters (the function itself never throws). -/
def attemptJSONRecovery (jsonStr : String) : JVal :=
  match jsonParse (recoveryRepair jsonStr) with
  | some v => v
  | none =>
      .obj [("error", .str "truncated_json"),
            ("partial_data", .str (String.mk (jsonStr.toList.take 500))),
            ("recovery_attempted", .bool true)]

/-! ### normalize-json.js: `extractJSON` -/

/-- Environment and clock visible to normalize-json.js: the variables
its code reads, plus the current `toISOString` timestamp. -/
structure EnvN where
  TOOL : Option String
  MODEL : Option String
  PR_REPO : Option String
  PR_NUMBER : Option String
  HEAD_SHA : Option String
  PR_BRANCH : Option String
  RUN_URL : Option String
  now : String

/-- Model of `extractPRInfo` (lines 77-85).  A `PR_NUMBER` that
`parseInt` cannot read yields `NaN`, which serializes as `null`. -/
def extractPRInfo (env : EnvN) : JVal :=
  .obj [("repo", .str (envOr env.PR_REPO "unknown")),
        ("number",
          match parseIntJS (envOr env.PR_NUMBER "0") with
          | some n => .num (Int.repr n)
          | none => .null),
        ("head_sha", .str (envOr env.HEAD_SHA "")),
        ("branch", .str (envOr env.PR_BRANCH "unknown")),
        ("link", .str (envOr env.RUN_URL "https://github.com/"))]

/-- Strict string comparison `v.key === lit`. -/
def jeqStr (v : Option JVal) (lit : String) : Bool :=
  match v with
  | some (.str t) => t = lit
  | _ => false

/-- JavaScript `x || d` over a possibly-absent value. -/
def jOr (v : Option JVal) (d : JVal) : JVal :=
  match v with
  | some x => if truthy x then x else d
  | none => d

/-- The standard empty `tests` sub-record the source synthesizes. -/
def emptyTests : JVal :=
  .obj [("executed", .bool false), ("command", .null),
        ("exit_code", .null), ("summary", .str "Tests not executed")]

/-- The configuration-echo guard (lines 93-94): truthy value with no
review keys but a configuration key. -/
def configLike (parsed : JVal) : Bool :=
  truthy parsed ∧ ¬truthyOpt (jget parsed "tool") ∧
    ¬truthyOpt (jget parsed "findings") ∧
    ¬truthyOpt (jget parsed "summary") ∧
    (truthyOpt (jget parsed "testing") ∨
      truthyOpt (jget parsed "review_overrides") ∨
      truthyOpt (jget parsed "providers"))

/-- The error report for a configuration echo (lines 96-113). -/
def configErrorReport (env : EnvN) : JVal :=
  .obj [("tool", .str (envOr env.TOOL "unknown")),
        ("model", .str (envOr env.MODEL "unknown")),
        ("timestamp", .str env.now),
        ("pr", extractPRInfo env),
        ("summary", .str
          "Provider output appears to be a configuration file rather than a review"),
        ("assumptions", .arr []),
        ("findings", .arr []),
        ("metrics", .obj []),
        ("evidence", .arr []),
        ("tests", emptyTests),
        ("exit_criteria", .obj [("ready_for_pr", .bool false),
          ("reasons", .arr [.str
            "Provider did not produce a valid review - output was configuration data"])]),
        ("error", .str "invalid_output_format")]

/-- The error report for a Claude execution error (lines 117-139). -/
def claudeErrorReport (env : EnvN) (parsed : JVal) : JVal :=
  .obj [("tool", .str (envOr env.TOOL "claude-code")),
        ("model", .str (envOr env.MODEL "opus")),
        ("timestamp", .str env.now),
        ("pr", extractPRInfo env),
        ("summary", .str
          "Claude encountered an error during execution and could not complete the review"),
        ("assumptions", .arr []),
        ("findings", .arr []),
        ("metrics", .obj [
          ("duration_ms", jOr (jget parsed "duration_ms") (.num "0")),
          ("cost_usd", jOr (jget parsed "total_cost_usd") (.num "0"))]),
        ("evidence", .arr []),
        ("tests", emptyTests),
        ("exit_criteria", .obj [("ready_for_pr", .bool false),
          ("reasons", .arr [.str
            "Claude error during execution - review could not be completed"])]),
        ("error", .str "claude_execution_error")]

/-- The conservative report built when a Claude envelope carries an
unstructured string result (lines 158-172). -/
def unstructuredReport (env : EnvN) (parsed : JVal) (resultStr : String) :
    JVal :=
  .obj [("tool", .str "claude-code"),
        ("model", jOr (jget parsed "model") (.str "sonnet")),
        ("timestamp", .str env.now),
        ("pr", .obj [("repo", .str "unknown"), ("number", .num "0"),
          ("head_sha", .str ""), ("branch", .str "unknown"),
          ("link", .str "https://github.com/")]),
        ("summary", .str
          (jsTrim resultStr ++ " — [normalized unstructured output]")),
        ("assumptions", .arr []), ("findings", .arr []),
        ("metrics", .obj []), ("evidence", .arr []),
        ("tests", emptyTests),
        ("exit_criteria", .obj [("ready_for_pr", .bool false),
          ("reasons", .arr [.str
            "claude result was unstructured; normalized without findings"])]),
        ("error", .str "unstructured_output")]

/-- The string-result arm of the Claude envelope (lines 143-173):
direct parse, then text extraction, then the unstructured report. -/
def claudeResultString (env : EnvN) (parsed : JVal) (resultStr : String) :
    JVal :=
  match jsonParse resultStr with
  | some direct =>
      if isObjOrArr direct then direct
      else
        match extractJSONFromText resultStr with
        | some v => v
        | none => unstructuredReport env parsed resultStr
  | none =>
      match extractJSONFromText resultStr with
      | some v => v
      | none => unstructuredReport env parsed resultStr

/-- `typeof v === 'object'` (true for `null`, objects and arrays). -/
def typeofIsObject : JVal → Bool
  | .null => true
  | .obj _ => true
  | .arr _ => true
  | _ => false

/-- The whole-text phase of `extractJSON` (lines 89-183), given a
successful `JSON.parse` of the input: `some v` models a `return`,
`none` the fall-through to text extraction. -/
def extractJSONWhole (env : EnvN) (parsed : JVal) : Option JVal :=
  if configLike parsed then some (configErrorReport env)
  else if jeqStr (jget parsed "type") "result" ∧
      jeqStr (jget parsed "subtype") "error_during_execution" then
    some (claudeErrorReport env parsed)
  else if jeqStr (jget parsed "type") "result" ∧
      (jget parsed "result").isSome then
    match jget parsed "result" with
    | some (.str s) => some (claudeResultString env parsed s)
    | some v =>
        if typeofIsObject v then some v
        else if truthyOpt (jget parsed "tool") ∧
            truthyOpt (jget parsed "model") ∧
            (jget parsed "findings").isSome then some parsed
        else none
    | none => none
  else if truthyOpt (jget parsed "tool") ∧ truthyOpt (jget parsed "model") ∧
      (jget parsed "findings").isSome then some parsed
  else none

/-- Greedy `/\{[\s\S]*\}/` on a string: from the first `\x7b` to the
last `\x7d` after it. -/
def braceSpan (s : String) : Option String :=
  let cs := s.toList
  match idxOfC cs '\x7b' with
  | none => none
  | some i =>
      match lastIdxOfC cs '\x7d' with
      | none => none
      | some j => if i < j then some (String.mk ((cs.drop i).take (j - i + 1)))
                  else none

/-- The `event.content` arm of the JSONL handler (lines 208-212).
`some (some v)` models a `return`, `some none` a fall-through to the
direct-event check, `none` a thrown error (the per-line `catch` then
skips that check). -/
def tryContent (event : JVal) : Option (Option JVal) :=
  if truthyOpt (jget event "content") then
    match jget event "content" with
    | some (.str s) =>
        match braceSpan s with
        | some sub =>
            match jsonParse sub with
            | some v => some (some v)
            | none => none
        | none => some none
    | _ => none
  else some none

/-- The `event.output` arm of the JSONL handler (lines 199-212), with
the same three-way result as `tryContent`.  A non-string `output` is
coerced by `JSON.parse`; its `.match` fallback throws. -/
def jsonlOutputArm (event : JVal) : Option (Option JVal) :=
  if truthyOpt (jget event "output") then
    match jget event "output" with
    | some (.str s) =>
        match jsonParse s with
        | some v => some (some v)
        | none =>
            match braceSpan s with
            | some sub =>
                match jsonParse sub with
                | some v => some (some v)
                | none => none
            | none => tryContent event
    | some v =>
        match jsonParse (jsToString v) with
        | some w => some (some w)
        | none => none
    | none => some none
  else tryContent event

/-- Handling of one parsed JSONL event (lines 196-217): the output and
content arms run for result-carrying event types, then any event whose
`tool`, `model` and `findings` are truthy is returned directly. -/
def jsonlTryEvent (event : JVal) : Option (Option JVal) :=
  let arm : Option (Option JVal) :=
    if jeqStr (jget event "type") "model_output" ∨
        jeqStr (jget event "type") "final_result" then
      jsonlOutputArm event
    else some none
  match arm with
  | none => none
  | some (some v) => some (some v)
  | some none =>
      if truthyOpt (jget event "tool") ∧ truthyOpt (jget event "model") ∧
          truthyOpt (jget event "findings") then some (some event)
      else some none

/-- Scan JSONL lines from the last backward (lines 192-221); a line
that throws or yields nothing is skipped. -/
def jsonlScan : List String → Option JVal
  | [] => none
  | line :: rest =>
      let l := jsTrim line
      if l = "" then jsonlScan rest
      else
        match jsonParse l with
        | none => jsonlScan rest
        | some event =>
            match jsonlTryEvent event with
            | some (some v) => some v
            | _ => jsonlScan rest

/-- The 21-character timestamp shape `[dddd-dd-ddTdd:dd:dd]`. -/
def isTs21 : List Char → Bool
  | ['[', y1, y2, y3, y4, '-', m1, m2, '-', d1, d2, 'T',
     h1, h2, ':', n1, n2, ':', s1, s2, ']'] =>
      isDigitC y1 ∧ isDigitC y2 ∧ isDigitC y3 ∧ isDigitC y4 ∧
        isDigitC m1 ∧ isDigitC m2 ∧ isDigitC d1 ∧ isDigitC d2 ∧
        isDigitC h1 ∧ isDigitC h2 ∧ isDigitC n1 ∧ isDigitC n2 ∧
        isDigitC s1 ∧ isDigitC s2
  | _ => false

/-- Whether the codex marker `[timestamp] codex\n` (28 characters)
starts at the head of the text. -/
def codexMarkerAt (cs : List Char) : Bool :=
  isTs21 (cs.take 21) ∧ begins " codex\n".toList (cs.drop 21)

/-- First index of the codex marker (the `match`/`indexOf` pair of
lines 230-231). -/
def findCodexMarker : List Char → Option Nat
  | [] => none
  | c :: rest =>
      if codexMarkerAt (c :: rest) then some 0
      else
        match findCodexMarker rest with
        | some i => some (i + 1)
        | none => none

/-- Strip the trailing `\n[timestamp] tokens used: N` report (the
anchored regex of line 234), if present. -/
def stripTokensTail (cs : List Char) : List Char :=
  let r := cs.reverse
  let ws := r.takeWhile isJsWsChar
  let r1 := r.drop ws.length
  let digits := r1.takeWhile isDigitC
  if digits = [] then cs
  else
    let r2 := r1.drop digits.length
    if begins (" tokens used: ".toList.reverse) r2 then
      let r3 := r2.drop 14
      if isTs21 (r3.take 21).reverse ∧ (r3.drop 21).head? = some '\n' then
        cs.take (cs.length -
          (ws.length + digits.length + 14 + 21 + 1))
      else cs
    else cs

/-- Worker for `stripStdinNotice`: `atLineStart` tracks the `m`-flag
anchor. -/
def stdinNoticeGo : List Char → Bool → List Char
  | [], _ => []
  | c :: rest, atLineStart =>
      if atLineStart ∧ begins "Reading prompt from stdin...\n".toList
          (c :: rest) then
        (c :: rest).drop 29
      else c :: stdinNoticeGo rest (c = '\n')

/-- Remove the first line-anchored `Reading prompt from stdin...\n`
occurrence (the `/^.../m` replace of line 226). -/
def stripStdinNotice (cs : List Char) : List Char :=
  stdinNoticeGo cs true

/-- The codex 0.22.0 preprocessing of `extractJSON` step 3
(lines 225-239): drop the stdin notice, cut everything before the
first codex marker, strip the tokens-used tail.  When no marker is
found the original input is used unchanged. -/
def codexPreprocess (input : String) : String :=
  let processed := stripStdinNotice input.toList
  match findCodexMarker processed with
  | some i =>
      String.mk (stripTokensTail (processed.drop (i + 28)))
  | none => input

/-- The step-4 fence regex `/```json\s*\n?([\s\S]*?)\n?```/i` (and its
plain variant): after the tag all whitespace is consumed greedily, the
lazy capture runs to the first subsequent fence, and one newline
directly before that fence is excluded from the capture. -/
def fenceMatch2 (tag : List Char) : List Char → Option (List Char)
  | [] => none
  | c :: rest =>
      if begins tag ((c :: rest).map Char.toLower) then
        let afterTag := (c :: rest).drop tag.length
        let afterWs := afterTag.dropWhile isJsWsChar
        match findSub ['`', '`', '`'] afterWs with
        | some i =>
            let body := afterWs.take i
            some (if body.getLast? = some '\n' then body.dropLast else body)
        | none => fenceMatch2 tag rest
      else fenceMatch2 tag rest

/-- Steps 4-5 of `extractJSON` (lines 241-326): strip one fenced
block, find the first balanced slice, parse it, fall back to
truncation recovery; `none` models the residual throws (no JSON
start, no matching close, recovery path unreachable). -/
def extractBalancedStep (cleaned : String) : Option JVal :=
  match firstBalancedSlice cleaned.toList with
  | none => none
  | some slice =>
      match jsonParse (String.mk slice) with
      | some v => some v
      | none => some (attemptJSONRecovery (String.mk slice))

/-- The text-extraction tail of `extractJSON` (steps 2-5). -/
def extractJSONTail (_env : EnvN) (input : String) : Option JVal :=
  let lines := splitNl (jsTrim input)
  let jsonlRes : Option JVal :=
    if lines.length > 1 ∧
        begins ['\x7b'] (jsTrim (lines.headD "")).toList then
      jsonlScan lines.reverse
    else none
  match jsonlRes with
  | some v => some v
  | none =>
      let processed := codexPreprocess input
      let cleaned : String :=
        match fenceMatch2 "```json".toList processed.toList with
        | some body => String.mk body
        | none =>
            match fenceMatch2 "```".toList processed.toList with
            | some body => String.mk body
            | none => processed
      extractBalancedStep cleaned

/-- Model of `extractJSON` (normalize-json.js lines 87-326); `none`
models a thrown extraction error. -/
def extractJSON (env : EnvN) (input : String) : Option JVal :=
  match jsonParse input with
  | some parsed =>
      match extractJSONWhole env parsed with
      | some v => some v
      | none => extractJSONTail env input
  | none => extractJSONTail env input

/-! ### normalize-json.js: `normalizeReport` -/

/-- Array test. -/
def isArr : JVal → Bool
  | .arr _ => true
  | _ => false

/-- Model of `parseFloat(s)`: leading float literal, `none` for NaN. -/
def parseFloatJS (s : String) : Option String :=
  let cs := s.toList.dropWhile isJsWsChar
  let signed : List Char × List Char :=
    match cs with
    | '-' :: rest => (['-'], rest)
    | '+' :: rest => (['+'], rest)
    | _ => ([], cs)
  let ip := signed.2.takeWhile isDigitC
  let afterInt := signed.2.drop ip.length
  let frac : List Char × List Char :=
    match afterInt with
    | '.' :: rest => ('.' :: rest.takeWhile isDigitC, rest.dropWhile isDigitC)
    | _ => ([], afterInt)
  if ip = [] ∧ frac.1.length ≤ 1 then none
  else
    let expo : List Char :=
      match frac.2 with
      | e :: rest =>
          if e = 'e' ∨ e = 'E' then
            match rest with
            | s2 :: rest2 =>
                if s2 = '+' ∨ s2 = '-' then
                  let ds := rest2.takeWhile isDigitC
                  if ds = [] then [] else e :: s2 :: ds
                else
                  let ds := rest.takeWhile isDigitC
                  if ds = [] then [] else e :: ds
            | [] => []
          else []
      | [] => []
    some (String.mk (signed.1 ++ ip ++ frac.1 ++ expo))

/-- Category normalization of one finding (lines 507-529). -/
def mapCategory (c : String) : String :=
  let cat := jsLower c
  if strIncludes cat "design" ∨ strIncludes cat "architecture" then
    "architecture"
  else if strIncludes cat "doc" ∧ ¬strIncludes cat "docs" then "docs"
  else if cat = "docs/style" ∨ cat = "documentation" then "docs"
  else if strIncludes cat "style" ∧ ¬strIncludes cat "docs" then "style"
  else if strIncludes cat "maintain" then "maintainability"
  else if strIncludes cat "correct" then "correctness"
  else if strIncludes cat "test" then "testing"
  else if strIncludes cat "security" then "security"
  else if strIncludes cat "performance" ∨ strIncludes cat "perf" then
    "performance"
  else if ¬(c ∈ ["security", "correctness", "performance", "testing",
      "architecture", "style", "maintainability", "docs"]) then "style"
  else c

/-- Severity normalization of one finding (lines 533-546). -/
def mapSeverity (s : String) : String :=
  let sev := jsLower s
  if sev = "critical" ∨ sev = "blocker" then "critical"
  else if sev = "high" ∨ sev = "major" then "high"
  else if sev = "medium" ∨ sev = "moderate" then "medium"
  else if sev = "low" ∨ sev = "minor" ∨ sev = "trivial" then "low"
  else if ¬(s ∈ ["critical", "high", "medium", "low"]) then "low"
  else s

/-- Evidence flattening (the mapper repeated at lines 463-474,
481-491 and 550-560): objects carrying `file`/`source` become
"file:locus" strings, other objects are stringified, primitives are
string-coerced. -/
def flattenEvidenceElem (e : JVal) : JVal :=
  match e with
  | .obj _ | .arr _ =>
      if truthyOpt (jget e "file") ∨ truthyOpt (jget e "source") then
        let file := jOr (jget e "file") (jOr (jget e "source") .null)
        let lns := jOr (jget e "lines") (.str "")
        if truthy lns then .str (jsToString file ++ ":" ++ jsToString lns)
        else file
      else .str (jsonStringify e)
  | other => .str (jsToString other)

/-- Nested assignment `d.k1.k2 = v` (throws when either level is not
an object). -/
def jsetIn (d : JVal) (k1 k2 : String) (v : JVal) : Option JVal :=
  match jget d k1 with
  | some inner =>
      match jset inner k2 v with
      | some inner2 => jset d k1 inner2
      | none => none
  | none => none

/-- Backfill one top-level field when its current value is falsy. -/
def backfill (d : JVal) (key : String) (v : JVal) : Option JVal :=
  if ¬truthyOpt (jget d key) then jset d key v else some d

/-- Fix one assumption entry (lines 479-500). -/
def fixAssumption (a : JVal) : Option JVal :=
  match a with
  | .null => none
  | .obj _ =>
      obind
        (if truthyOpt (jget a "evidence") ∧
            isArr ((jget a "evidence").getD .null) then
          match jget a "evidence" with
          | some (.arr es) =>
              jset a "evidence" (.arr (es.map flattenEvidenceElem))
          | _ => some a
        else some a) fun a1 =>
      match jget a1 "falsification_step" with
      | some .null => some (jdel a1 "falsification_step")
      | some v => jset a1 "falsification_step" (.str (jsToString v))
      | none => some a1
  | other => some other

/-- Fix one finding entry (lines 505-563): category and severity
remapped onto the fixed enumerations when present as strings (a truthy
non-string throws at `.toLowerCase`), evidence flattened. -/
def fixFinding (f : JVal) : Option JVal :=
  match f with
  | .null => none
  | .obj _ =>
      obind
        (if truthyOpt (jget f "category") then
          match jget f "category" with
          | some (.str c) => jset f "category" (.str (mapCategory c))
          | _ => none
        else some f) fun f1 =>
      obind
        (if truthyOpt (jget f1 "severity") then
          match jget f1 "severity" with
          | some (.str s) => jset f1 "severity" (.str (mapSeverity s))
          | _ => none
        else some f1) fun f2 =>
      if truthyOpt (jget f2 "evidence") ∧
          isArr ((jget f2 "evidence").getD .null) then
        match jget f2 "evidence" with
        | some (.arr es) =>
            jset f2 "evidence" (.arr (es.map flattenEvidenceElem))
        | _ => some f2
      else some f2
  | other => some other

/-- Sequence an option-producing fix over a list (`Array.map` whose
callback can throw). -/
def mapFixes (fix : JVal → Option JVal) : List JVal → Option (List JVal)
  | [] => some []
  | x :: xs => do
      let y ← fix x
      let ys ← mapFixes fix xs
      some (y :: ys)

/-- The `tests.executed` repair (lines 440-449). -/
def fixTestsExecuted (d : JVal) : Option JVal :=
  match jget d "tests" with
  | some tests =>
      match jget tests "executed" with
      | none =>
          match jset tests "executed" (.bool false) with
          | some t2 => jset d "tests" t2
          | none => none
      | some .null =>
          match jset tests "executed" (.bool false) with
          | some t2 => jset d "tests" t2
          | none => none
      | some (.bool _) => some d
      | some v =>
          match jset tests "executed" (.bool (truthy v)) with
          | some t2 => jset d "tests" t2
          | none => none
  | none => none

/-- The `tests.coverage` repair (lines 567-582). -/
def fixTestsCoverage (d : JVal) : Option JVal :=
  if truthyOpt (jget d "tests") then
    match jget ((jget d "tests").getD .null) "coverage" with
    | none => some d
    | some (.str s) =>
        if jsLower s = "not reported" ∨ s = "" then
          jsetIn d "tests" "coverage" .null
        else
          match parseFloatJS s with
          | some lit => jsetIn d "tests" "coverage" (.num lit)
          | none => jsetIn d "tests" "coverage" .null
    | some (.obj _) => jsetIn d "tests" "coverage" .null
    | some (.arr _) => jsetIn d "tests" "coverage" .null
    | some .null => jsetIn d "tests" "coverage" .null
    | some (.num _) => some d
    | some (.bool _) => jsetIn d "tests" "coverage" .null
  else some d

/-- The `pr` guard of line 417: present, truthy and of object type. -/
def prShapeOk (d : JVal) : Bool :=
  match jget d "pr" with
  | some v => truthy v && typeofIsObject v
  | none => false

/-- The `pr` shape repair of `normalizeReport` (lines 417-419):
replace a falsy or non-object `pr` with an empty object. -/
def fixPrShape (d3 : JVal) : Option JVal :=
  if !prShapeOk d3 then jset d3 "pr" (.obj []) else some d3

/-- Backfill `pr.repo` (line 420). -/
def fixPrRepo (env : EnvN) (d : JVal) : Option JVal :=
  if ¬truthyOpt (jget ((jget d "pr").getD .null) "repo") then
    jsetIn d "pr" "repo" (.str (envOr env.PR_REPO "unknown"))
  else some d

/-- Backfill `pr.number` (lines 421-424): only an undefined value is
replaced, a `null` stays. -/
def fixPrNumber (env : EnvN) (d : JVal) : Option JVal :=
  if (jget ((jget d "pr").getD .null) "number").isNone then
    jsetIn d "pr" "number"
      (.num (match parseIntJS (envOr env.PR_NUMBER "0") with
             | some n => Int.repr n
             | none => "0"))
  else some d

/-- Backfill `pr.head_sha` (line 425). -/
def fixPrHeadSha (env : EnvN) (d : JVal) : Option JVal :=
  if ¬truthyOpt (jget ((jget d "pr").getD .null) "head_sha") then
    jsetIn d "pr" "head_sha" (.str (envOr env.HEAD_SHA ""))
  else some d

/-- Backfill `pr.branch` (line 426). -/
def fixPrBranch (env : EnvN) (d : JVal) : Option JVal :=
  if ¬truthyOpt (jget ((jget d "pr").getD .null) "branch") then
    jsetIn d "pr" "branch" (.str (envOr env.PR_BRANCH "unknown"))
  else some d

/-- Backfill `pr.link` (line 427). -/
def fixPrLink (env : EnvN) (d : JVal) : Option JVal :=
  if ¬truthyOpt (jget ((jget d "pr").getD .null) "link") then
    jsetIn d "pr" "link" (.str (envOr env.RUN_URL "https://github.com/"))
  else some d

/-- The `tests` default/repair (lines 433-449). -/
def fixTestsDefault (d : JVal) : Option JVal :=
  if ¬truthyOpt (jget d "tests") then jset d "tests" emptyTests
  else fixTestsExecuted d

/-- The evidence flattening step (lines 462-475). -/
def fixEvidenceArr (d : JVal) : Option JVal :=
  if truthyOpt (jget d "evidence") ∧
      isArr ((jget d "evidence").getD .null) then
    match jget d "evidence" with
    | some (.arr es) => jset d "evidence" (.arr (es.map flattenEvidenceElem))
    | _ => some d
  else some d

/-- The assumptions repair step (lines 478-501). -/
def fixAssumptionsArr (d : JVal) : Option JVal :=
  if truthyOpt (jget d "assumptions") ∧
      isArr ((jget d "assumptions").getD .null) then
    match jget d "assumptions" with
    | some (.arr as) => do
        let as2 ← mapFixes fixAssumption as
        jset d "assumptions" (.arr as2)
    | _ => some d
  else some d

/-- The findings repair step (lines 504-564). -/
def fixFindingsArr (d : JVal) : Option JVal :=
  if truthyOpt (jget d "findings") ∧
      isArr ((jget d "findings").getD .null) then
    match jget d "findings" with
    | some (.arr fs) => do
        let fs2 ← mapFixes fixFinding fs
        jset d "findings" (.arr fs2)
    | _ => some d
  else some d

/-- The backfilling tail of `normalizeReport` (lines 416-584),
separated from the leading tool/model overwrites: timestamp, the `pr`
sub-record, the empty-collection defaults, the tests/exit-criteria/
summary defaults, then the evidence/assumptions/findings repairs and
the coverage fix, in source order. -/
def normalizeRest (env : EnvN) (d2 : JVal) : Option JVal :=
  obind (backfill d2 "timestamp" (.str env.now)) fun d3 =>
  obind (fixPrShape d3) fun d4 =>
  obind (fixPrRepo env d4) fun d5 =>
  obind (fixPrNumber env d5) fun d6 =>
  obind (fixPrHeadSha env d6) fun d7 =>
  obind (fixPrBranch env d7) fun d8 =>
  obind (fixPrLink env d8) fun d9 =>
  obind (backfill d9 "timestamp" (.str env.now)) fun d10 =>
  obind (backfill d10 "assumptions" (.arr [])) fun d11 =>
  obind (backfill d11 "findings" (.arr [])) fun d12 =>
  obind (backfill d12 "metrics" (.obj [])) fun d13 =>
  obind (backfill d13 "evidence" (.arr [])) fun d14 =>
  obind (fixTestsDefault d14) fun d15 =>
  obind (backfill d15 "exit_criteria"
    (.obj [("ready_for_pr", .bool false), ("reasons", .arr [])])) fun d16 =>
  obind (backfill d16 "summary" (.str "No summary provided")) fun d17 =>
  obind (fixEvidenceArr d17) fun d18 =>
  obind (fixAssumptionsArr d18) fun d19 =>
  obind (fixFindingsArr d19) fun d20 =>
  fixTestsCoverage d20

/-- Model of `normalizeReport` (normalize-json.js lines 402-585);
`none` models a thrown `TypeError`.  `tool` is the detected tool value
(`json.tool || process.env.TOOL || null`): lines 404-405 overwrite
`data.tool` only when the detected value is truthy and `data.model`
only when the environment provides a model; then the backfilling tail
runs. -/
def normalizeReport (env : EnvN) (tool : JVal) (data0 : JVal) :
    Option JVal :=
  obind (if truthy tool then jset data0 "tool" tool else some data0)
    fun d1 =>
  obind (match env.MODEL with
         | some m => if m ≠ "" then jset d1 "model" (.str m) else some d1
         | none => some d1) fun d2 =>
  normalizeRest env d2

/-! ### normalize-json.js: `main`, and the executor's composite
normalization -/

/-- The tool detection of `main` (line 618):
`json.tool || process.env.TOOL || null`, preferring the report's own
self-reported tool value over the environment's. -/
def detectTool (env : EnvN) (json : JVal) : JVal :=
  if truthyOpt (jget json "tool") then (jget json "tool").getD .null
  else
    match env.TOOL with
    | some t => if t ≠ "" then .str t else .null
    | none => .null

/-- Model of `main` (normalize-json.js lines 588-638) on
stdin input: empty input and any thrown extraction or normalization
error exit nonzero (`none`); otherwise the (possibly normalized) JSON
value is printed (`some`).  The filename-based tool hints do not apply
on the stdin path the executor uses. -/
def mainStdin (env : EnvN) (input : String) : Option JVal :=
  if jsTrim input = "" then none
  else
    match extractJSON env input with
    | none => none
    | some json =>
        match json with
        | .null => none
        | _ =>
            if truthyOpt (jget json "findings") ∨
                truthyOpt (jget json "assumptions") ∨
                truthyOpt (jget json "tests") then
              normalizeReport env (detectTool env json) json
            else some json

/-- The environment the executor passes to the normalizer child
(config-loader.js lines 860-871). -/
def executorChildEnv (env : EnvN) : EnvN :=
  { TOOL := some (envOr env.TOOL "unknown"),
    MODEL := some (envOr env.MODEL "unknown"),
    PR_NUMBER := some (envOr env.PR_NUMBER ""),
    PR_REPO := some (envOr env.PR_REPO ""),
    HEAD_SHA := some (envOr env.HEAD_SHA ""),
    PR_BRANCH := some (envOr env.PR_BRANCH ""),
    RUN_URL := some (envOr env.RUN_URL ""),
    now := env.now }

/-- The fallback report the executor builds when the normalizer child
exits nonzero (config-loader.js lines 901-913; the `error` string in
the source carries the child's stderr after the fixed prefix). -/
def execErrorJson (env : EnvN) (input : String) : JVal :=
  .obj [("tool", .str (envOr env.TOOL "unknown")),
        ("model", .str (envOr env.MODEL "unknown")),
        ("timestamp", .str env.now),
        ("error", .str "Failed to normalize output"),
        ("raw_output", .str (String.mk (input.toList.take 1000))),
        ("findings", .arr []),
        ("exit_criteria", .obj [("ready_for_pr", .bool false),
          ("reasons", .arr [.str "Failed to generate valid review"])])]

/-- Model of `ProviderExecutor.normalizeJson` (config-loader.js lines
853-941): run the normalizer on the input; a nonzero child exit (or a
spawn failure, which builds the same shape of report) resolves with
the fallback error report — the operation always resolves. -/
def executorNormalizeJson (env : EnvN) (input : String) : JVal :=
  match mainStdin (executorChildEnv env) input with
  | some j => j
  | none => execErrorJson env input

/-- Modelled from the spec: the fixed report schema (spec §6, "Report
schema (fixed fields)"), whose JSON-schema file
`config/schemas/report.schema.json` is not part of the sources.  A
conforming report is an object carrying tool id, model id, timestamp,
PR sub-record, summary string, assumptions list, findings list, tests
sub-record, metrics map, evidence list, and an exit-criteria sub-record
with a boolean ready flag and a reasons list. -/
def reportSchemaOK (v : JVal) : Bool :=
  isObj v &&
    (match jget v "tool" with | some (.str _) => true | _ => false) &&
    (match jget v "model" with | some (.str _) => true | _ => false) &&
    (match jget v "timestamp" with | some (.str _) => true | _ => false) &&
    (match jget v "pr" with | some (.obj _) => true | _ => false) &&
    (match jget v "summary" with | some (.str _) => true | _ => false) &&
    (match jget v "assumptions" with | some (.arr _) => true | _ => false) &&
    (match jget v "findings" with | some (.arr _) => true | _ => false) &&
    (match jget v "tests" with | some (.obj _) => true | _ => false) &&
    (match jget v "metrics" with | some (.obj _) => true | _ => false) &&
    (match jget v "evidence" with | some (.arr _) => true | _ => false) &&
    (match jget v "exit_criteria" with
     | some ec =>
         (match jget ec "ready_for_pr" with
          | some (.bool _) => true | _ => false) &&
         (match jget ec "reasons" with | some (.arr _) => true | _ => false)
     | none => false)

/-! ### aggregate-reviews.mjs: the aggregator / gate

The three expected report slots are processed in the fixed order
claude-code, codex-cli, gemini-cli.  A slot is given as the report
file's text (`none` when the file is missing or unreadable) plus the
byte length of a preserved raw capture for that tool, when one exists.
Schema validation (`ajv` compiled from `report.schema.json`, a file
outside the sources) is a parameter.  Error strings are modelled as
tags; only their number matters to the gate. -/

/-- The per-slot fix-ups of aggregate-reviews.mjs lines 57-77, on a
successfully parsed report value; `none` models a thrown `TypeError`
(caught by the slot's `catch`). -/
def aggFixups (now : String) (tool : String) (json : JVal) :
    Option JVal := do
  let j1 ←
    if truthyOpt (jget json "tests") then
      match jget json "tests" with
      | some tests =>
          match jget tests "executed" with
          | none =>
              match jset tests "executed" (.bool false) with
              | some t2 => jset json "tests" t2
              | none => none
          | some .null =>
              match jset tests "executed" (.bool false) with
              | some t2 => jset json "tests" t2
              | none => none
          | some _ => some json
      | none => some json
    else some json
  let j2 ← backfill j1 "tool" (.str tool)
  let j3 ← backfill j2 "model" (.str "unknown")
  let j4 ← backfill j3 "timestamp" (.str now)
  let j5 ← backfill j4 "pr" (.obj [])
  let j6 ←
    if ¬truthyOpt (jget j5 "summary") ∧ truthyOpt (jget j5 "error") then
      jset j5 "summary"
        (.str ("Error: " ++ jsToString ((jget j5 "error").getD .null)))
    else if ¬truthyOpt (jget j5 "summary") then
      jset j5 "summary" (.str "No summary provided")
    else some j5
  let j7 ← backfill j6 "assumptions" (.arr [])
  let j8 ← backfill j7 "findings" (.arr [])
  let j9 ← backfill j8 "tests"
    (.obj [("executed", .bool false), ("command", .null),
           ("exit_code", .null), ("summary", .str "Not executed")])
  backfill j9 "exit_criteria"
    (.obj [("ready_for_pr", .bool false), ("reasons", .arr [])])

/-- The minimal placeholder pushed for a failed slot that still has a
raw capture (lines 112-120). -/
def rawPlaceholder (tool : String) (rawLen : Nat) : JVal :=
  .obj [("tool", .str tool), ("model", .str "unknown"),
        ("summary", .str "Failed to parse JSON report"),
        ("findings", .arr []),
        ("exit_criteria", .obj [("ready_for_pr", .bool false),
          ("reasons", .arr [.str "Failed to parse report"])]),
        ("_hasRawOutput", .bool true),
        ("_rawLength", .num (Nat.repr rawLen))]

/-- The `catch` path of one slot (lines 97-125): record the error,
and when a raw capture exists record its note and push the
placeholder. -/
def aggCatch (tool : String) (raw : Option Nat) :
    List String × List JVal × String :=
  match raw with
  | some n => (["missing:" ++ tool, "rawnote:" ++ tool],
               [rawPlaceholder tool n], "failed")
  | none => (["missing:" ++ tool], [], "failed")

/-- Process one report slot (the loop body, lines 51-126): errors
recorded, reports pushed, and the slot's status. -/
def processSlot (validate : JVal → Bool) (now : String) (tool : String)
    (file : Option String) (raw : Option Nat) :
    List String × List JVal × String :=
  match file with
  | none => aggCatch tool raw
  | some content =>
      match jsonParse content with
      | none => aggCatch tool raw
      | some json =>
          match aggFixups now tool json with
          | none => aggCatch tool raw
          | some fixed =>
              if validate fixed then ([], [fixed], "parsed")
              else if ¬truthyOpt (jget fixed "findings") ∧
                  ¬truthyOpt (jget fixed "summary") then
                (["schema:" ++ tool, "skipped:" ++ tool], [],
                 "skipped-invalid")
              else
                match jset fixed "_validation_warnings"
                    (.str "validation warnings") with
                | some marked =>
                    (["schema:" ++ tool], [marked], "parsed-with-warnings")
                | none => aggCatch tool raw

/-- One expected report slot: file text (if readable) and preserved
raw-capture length (if present). -/
structure Slot where
  file : Option String
  raw : Option Nat

/-- Collected errors and included reports across the three fixed
slots, in order. -/
def collectSlots (validate : JVal → Bool) (now : String)
    (claude codex gemini : Slot) : List String × List JVal :=
  let r1 := processSlot validate now "claude-code" claude.file claude.raw
  let r2 := processSlot validate now "codex-cli" codex.file codex.raw
  let r3 := processSlot validate now "gemini-cli" gemini.file gemini.raw
  (r1.1 ++ r2.1 ++ r3.1, r1.2.1 ++ r2.2.1 ++ r3.2.1)

/-- Spread one finding and stamp the owning tool
(`{...f, _tool: r.tool}`). -/
def spreadWithTool (f : JVal) (tool : JVal) : JVal :=
  .obj (fieldsSet (match f with | .obj fs => fs | _ => []) "_tool" tool)

/-- `(r.findings || []).map(...)` for one report: `none` models the
`TypeError` when `findings` is truthy but has no `.map` (not an
array), which crashes the aggregator before a gate is written. -/
def findingsWithTool (r : JVal) : Option (List JVal) :=
  match jget r "findings" with
  | some (.arr fs) =>
      some (fs.map (fun f => spreadWithTool f ((jget r "tool").getD .null)))
  | some v =>
      if truthy v then none
      else some []
  | none => some []

/-- Same flattening for assumptions (lines 138-140). -/
def assumptionsWithTool (r : JVal) : Option (List JVal) :=
  match jget r "assumptions" with
  | some (.arr as) =>
      some (as.map (fun a => spreadWithTool a ((jget r "tool").getD .null)))
  | some v =>
      if truthy v then none
      else some []
  | none => some []

/-- Union of a flattening over all included reports; `none` when any
report crashes it. -/
def flatUnion (f : JVal → Option (List JVal)) :
    List JVal → Option (List JVal)
  | [] => some []
  | r :: rs => do
      let xs ← f r
      let ys ← flatUnion f rs
      some (xs ++ ys)

/-- The must-fix predicate of line 137:
`f.must_fix || f.severity === 'critical' || f.severity === 'high'`. -/
def isMustFix (f : JVal) : Bool :=
  truthyOpt (jget f "must_fix") ∨ jeqStr (jget f "severity") "critical" ∨
    jeqStr (jget f "severity") "high"

/-- The readiness check of lines 142-143:
`results.length === 3 && results.every(r => r.exit_criteria?.ready_for_pr === true)`. -/
def allReady (results : List JVal) : Bool :=
  results.length = 3 ∧
    results.all (fun r =>
      match jget r "exit_criteria" with
      | some ec =>
          match jget ec "ready_for_pr" with
          | some (.bool true) => true
          | _ => false
      | none => false)

/-- The aggregate computation through the gate decision (lines
128-147): errors and included reports from the three slots, must-fix
union, readiness; `none` models the crash on a truthy non-array
`findings`/`assumptions` field, in which case no gate value is
produced at all. -/
def aggregateGate (validate : JVal → Bool) (now : String)
    (claude codex gemini : Slot) : Option String :=
  let collected := collectSlots validate now claude codex gemini
  match flatUnion findingsWithTool collected.2 with
  | none => none
  | some allFindings =>
      match flatUnion assumptionsWithTool collected.2 with
      | none => none
      | some _ =>
          let mustFix := allFindings.filter isMustFix
          some (if collected.1.isEmpty ∧ mustFix.isEmpty ∧
              allReady collected.2 then "pass" else "fail")

/-! ### config-loader.js: provider configuration -/

/-- One provider's configuration entry (the fields the embedded code
paths read).  `enabled` keeps its raw JSON value: the source compares
it with `!== false`, so only a literal `false` disables. -/
structure ProviderCfg where
  enabled : Option JVal
  model : Option String
  timeout_override : Option Nat

/-- The loaded configuration slice the builder and executor read. -/
structure PipelineCfg where
  providers : Option (List (String × ProviderCfg))
  executionTimeoutSeconds : Option Nat

/-- Lookup of one provider's entry (`this.config.providers?.[p]`). -/
def providerLookup (cfg : PipelineCfg) (provider : String) :
    Option ProviderCfg :=
  match cfg.providers with
  | none => none
  | some m =>
      match m.find? (fun kv => kv.1 = provider) with
      | some kv => some kv.2
      | none => none

/-- Model of `ConfigLoader.isProviderEnabled` (config-loader.js lines
280-282): `this.config.providers?.[provider]?.enabled !== false`. -/
def isProviderEnabled (cfg : PipelineCfg) (provider : String) : Bool :=
  match providerLookup cfg provider with
  | none => true
  | some pc =>
      match pc.enabled with
      | some (.bool false) => false
      | _ => true

/-- The `||`-chained timeout of `getProviderConfig` (line 260):
`timeout_override || execution?.timeout_seconds || 120` with zero
falsy. -/
def resolveTimeout (pc : ProviderCfg) (cfg : PipelineCfg) : Nat :=
  let fallback :=
    match cfg.executionTimeoutSeconds with
    | some t => if t ≠ 0 then t else 120
    | none => 120
  match pc.timeout_override with
  | some t => if t ≠ 0 then t else fallback
  | none => fallback

/-- Model of `ConfigLoader.getProviderConfig` (lines 253-266): throws
for a provider absent from the providers map. -/
def getProviderConfig (cfg : PipelineCfg) (provider : String) :
    Except String (ProviderCfg × Nat) :=
  match providerLookup cfg provider with
  | none => .error ("Provider '" ++ provider ++ "' not configured")
  | some pc => .ok (pc, resolveTimeout pc cfg)

/-- Model of `ConfigLoader.getMinimalDefaults` (lines 375-411),
restricted to the embedded fields. -/
def getMinimalDefaults : PipelineCfg :=
  { providers := some
      [("claude", { enabled := some (.bool true), model := some "sonnet",
                    timeout_override := none }),
       ("codex", { enabled := some (.bool true), model := some "gpt-5",
                   timeout_override := none }),
       ("gemini", { enabled := some (.bool true),
                    model := some "gemini-2.5-pro",
                    timeout_override := none })],
    executionTimeoutSeconds := some 120 }

/-! ### command-builder (src/unnamed/part_001): `buildCommand` -/

/-- The built execution descriptor, restricted to the fields the
claims reason about.  Constructing it performs no writes and starts no
subprocess (the source builders only read manifest and prompt files). -/
structure Descriptor where
  provider : String
  model : String
  timeout : Nat
  tool : String
  outputFile : String
  rawOutputFile : Option String

/-- The per-provider descriptor construction (`buildClaudeCommand`,
`buildCodexCommand`, `buildGeminiCommand`): the model default, the
`timeout || 1500` fallback, the fixed TOOL tag and report paths. -/
def buildFor (pkgDir provider : String) (pc : ProviderCfg)
    (timeout : Nat) : Descriptor :=
  let t := if timeout ≠ 0 then timeout else 1500
  let mdl (d : String) : String :=
    match pc.model with
    | some m => if m ≠ "" then m else d
    | none => d
  if provider = "claude" then
    { provider := "claude", model := mdl "opus", timeout := t,
      tool := "claude-code",
      outputFile := pkgDir ++ "/workspace/reports/claude-code.json",
      rawOutputFile := none }
  else if provider = "codex" then
    { provider := "codex", model := mdl "gpt-5", timeout := t,
      tool := "codex-cli",
      outputFile := pkgDir ++ "/workspace/reports/codex-cli.json",
      rawOutputFile := some (pkgDir ++ "/workspace/reports/codex-cli.raw.txt") }
  else
    { provider := "gemini", model := mdl "gemini-2.5-pro", timeout := t,
      tool := "gemini-cli",
      outputFile := pkgDir ++ "/workspace/reports/gemini-cli.json",
      rawOutputFile := none }

/-- Model of `CommandBuilder.buildCommand` (src/unnamed/part_001 lines
85-128): the enabled check, then `getProviderConfig` (which throws for
unconfigured providers), then the whitelist check, then the
per-provider builder.  `.ok none` models a `return null`; `.error`
models a throw.  The three whitelisted manifests ship with the
package, so manifest loading is not a failure source here. -/
def buildCommand (cfg : PipelineCfg) (pkgDir provider : String) :
    Except String (Option Descriptor) :=
  if ¬isProviderEnabled cfg provider then .ok none
  else
    match getProviderConfig cfg provider with
    | .error e => .error e
    | .ok (pc, timeout) =>
        if ¬(provider ∈ ["claude", "codex", "gemini"]) then .ok none
        else .ok (some (buildFor pkgDir provider pc timeout))

/-! ### config-loader.js ProviderExecutor: timeout handling

The timers and signals of `executeWithStdin` (lines 567-578) and
`executeCodex` (lines 681-687), over a process-behavior abstraction.
Node semantics: `ChildProcess.killed` is set to true as soon as
`kill()` delivers a signal — it does not mean the process exited. -/

/-- `proc.killed` after the timeout handler's successful
`proc.kill('SIGTERM')`. -/
def killedFlagAfterSigterm : Bool := true

/-- Whether the stdin path's grace timer (lines 572-576,
`if (!proc.killed) proc.kill('SIGKILL')`) ever delivers the forceful
kill: the guard reads the already-set killed flag. -/
def stdinPathSendsSigkill : Bool := !killedFlagAfterSigterm

/-- Signals the stdin path's timeout handler delivers. -/
def signalsSentStdin : List String :=
  "SIGTERM" :: (if stdinPathSendsSigkill then ["SIGKILL"] else [])

/-- Signals the codex path's timeout handler (lines 683-687, a single
`proc.kill('SIGTERM')` with no grace timer) delivers. -/
def signalsSentCodex : List String := ["SIGTERM"]

/-- Abstract behavior of the external process: when it would exit on
its own, and whether (and after how long) it exits in response to
SIGTERM. -/
structure ProcBeh where
  exitsEarly : Option Nat
  termResponsive : Bool
  termDelay : Nat

/-- Settlement of one execution promise under a configured timeout of
`timeout` seconds: the timer fires, SIGTERM is sent, and the promise
settles only when the process exits (`timedOut` makes the exit handler
reject with the distinguishable timed-out error).  `sigkillAfterGrace`
says whether a forceful kill follows 5 seconds later. -/
inductive RunOutcome where
  | finished (t : Nat)
  | timedOutErr (t : Nat)
  | hang

/-- The common settlement function of both execution paths. -/
def runWithTimeout (sigkillAfterGrace : Bool) (p : ProcBeh)
    (timeout : Nat) : RunOutcome :=
  let afterTimer : RunOutcome :=
    if p.termResponsive then .timedOutErr (timeout + p.termDelay)
    else if sigkillAfterGrace then .timedOutErr (timeout + 5)
    else .hang
  match p.exitsEarly with
  | some t => if t < timeout then .finished t else afterTimer
  | none => afterTimer

/-- Settlement of `executeWithStdin` (Claude/Gemini path). -/
def executeStdinRun (p : ProcBeh) (timeout : Nat) : RunOutcome :=
  runWithTimeout stdinPathSendsSigkill p timeout

/-- Settlement of `executeCodex` (the argument-based path). -/
def executeCodexRun (p : ProcBeh) (timeout : Nat) : RunOutcome :=
  runWithTimeout false p timeout

/-! ### POSIX path operations (`node:path`) used by
`validateOutputPath` -/

/-- Split a path on slashes, keeping empty segments. -/
def splitSegs (p : String) : List String :=
  (p.toList.splitOn '/').map String.mk

/-- Absolute-path test (`path.isAbsolute` on POSIX). -/
def isAbsPath (p : String) : Bool := p.toList.head? = some '/'

/-- Normalize segments as `path.resolve` does: drop empty and `.`
segments, let `..` pop (never above the root). -/
def normSegs : List String → List String → List String
  | acc, [] => acc.reverse
  | acc, s :: rest =>
      if s = "" ∨ s = "." then normSegs acc rest
      else if s = ".." then normSegs (acc.drop 1) rest
      else normSegs (s :: acc) rest

/-- Model of `path.resolve(cwd, p)` for an absolute `cwd`. -/
def resolvePath (cwd p : String) : String :=
  let segs :=
    if isAbsPath p then normSegs [] (splitSegs p)
    else normSegs [] (splitSegs cwd ++ splitSegs p)
  "/" ++ String.intercalate "/" segs

/-- Length of the common prefix of two segment lists. -/
def commonLen : List String → List String → Nat
  | a :: as1, b :: bs => if a = b then commonLen as1 bs + 1 else 0
  | _, _ => 0

/-- Model of `path.relative(fromP, toP)` for resolved absolute
paths. -/
def relativePath (fromP toP : String) : String :=
  let fs := normSegs [] (splitSegs fromP)
  let ts := normSegs [] (splitSegs toP)
  let common := commonLen fs ts
  let ups := List.replicate (fs.length - common) ".."
  String.intercalate "/" (ups ++ ts.drop common)

/-- Model of `ProviderExecutor.validateOutputPath` (config-loader.js
lines 741-758): reject any path containing `..`, then reject a
resolved path outside `packageDir/workspace/reports`. -/
def validateOutputPath (pkgDir cwd outputPath : String) :
    Except String String :=
  if strIncludes outputPath ".." then
    .error ("Invalid output path contains directory traversal: " ++
      outputPath)
  else
    let resolvedPath := resolvePath cwd outputPath
    let expectedDir := resolvePath cwd (pkgDir ++ "/workspace/reports")
    let rel := relativePath expectedDir resolvedPath
    if begins "..".toList rel.toList ∨ isAbsPath rel then
      .error ("Output path outside allowed directory: " ++ outputPath)
    else .ok resolvedPath

/-! ### ProviderExecutor: filesystem-action traces

Each stage of the exit handling is translated into the ordered list of
actions it performs; a `pathErrorAct` marks the `validateOutputPath`
throw and nothing after it in that stage executes.  There is no delete
action anywhere: the one historical `fs.unlink` of the codex raw file
is commented out in the source (config-loader.js line 839). -/

inductive FsAct where
  | mkdirAct (p : String)
  | writeAct (p : String)
  | saveRawWriteAct (p : String) (content : String)
  | readAct (p : String)
  | spawnNormalizerAct
  | pathErrorAct (p : String)
  | rejectTimeoutAct
  | rejectErrAct
  | resolveAct
  | deleteAct (p : String)

/-- Directory of a resolved path (`path.dirname`). -/
def dirnameOf (p : String) : String :=
  let segs := normSegs [] (splitSegs p)
  "/" ++ String.intercalate "/" (segs.dropLast)

/-- The combined raw payload of the exit handler (line 615):
`stdout || stderr || 'No output received'`. -/
def combinedOutput (stdout stderr : String) : String :=
  if stdout ≠ "" then stdout
  else if stderr ≠ "" then stderr
  else "No output received"

/-- Model of `ProviderExecutor.saveRawOutput` (lines 763-798): the
codex tool returns without writing; other tools write
`TOOL.raw.txt` under the fixed raw directory.  Its own filesystem
errors are caught internally and never propagate. -/
def saveRawOutputActs (pkgDir tool content : String) : List FsAct :=
  if tool = "codex-cli" then []
  else
    let rawDir := pkgDir ++ "/workspace/reports/raw"
    [.mkdirAct rawDir,
     .saveRawWriteAct (rawDir ++ "/" ++ tool ++ ".raw.txt") content]

/-- Model of `ProviderExecutor.processOutput` (lines 803-815): run the
normalizer, validate the output path, create the directory, write. -/
def processOutputActs (pkgDir cwd outFile : String) :
    List FsAct × Bool :=
  match validateOutputPath pkgDir cwd outFile with
  | .error _ => ([.spawnNormalizerAct, .pathErrorAct outFile], false)
  | .ok p =>
      ([.spawnNormalizerAct, .mkdirAct (dirnameOf p), .writeAct p], true)

/-- Model of `ProviderExecutor.writeErrorOutput` (lines 946-962). -/
def writeErrorOutputActs (pkgDir cwd outFile : String) :
    List FsAct × Bool :=
  match validateOutputPath pkgDir cwd outFile with
  | .error _ => ([.pathErrorAct outFile], false)
  | .ok p => ([.mkdirAct (dirnameOf p), .writeAct p], true)

/-- Model of `ProviderExecutor.processCodexOutput` (lines 820-848):
read the side file, copy it into the raw directory, normalize,
validate, write; any error is caught and routed to
`writeErrorOutput`, whose own validation failure then propagates. -/
def processCodexOutputActs (pkgDir cwd outFile : String)
    (rawReadable : Bool) (rawContent : String) : List FsAct × Bool :=
  let rawFile := pkgDir ++ "/workspace/reports/codex-cli.raw.txt"
  let rawDir := pkgDir ++ "/workspace/reports/raw"
  if ¬rawReadable then
    let we := writeErrorOutputActs pkgDir cwd outFile
    ([.readAct rawFile] ++ we.1, we.2)
  else
    let pre : List FsAct :=
      [.readAct rawFile, .mkdirAct rawDir,
       .saveRawWriteAct (rawDir ++ "/codex-cli.raw.txt") rawContent,
       .spawnNormalizerAct]
    match validateOutputPath pkgDir cwd outFile with
    | .error _ =>
        let we := writeErrorOutputActs pkgDir cwd outFile
        (pre ++ [.pathErrorAct outFile] ++ we.1, we.2)
    | .ok p => (pre ++ [.writeAct p], true)

/-- Model of the `executeWithStdin` exit handler (lines 603-636): on a
fired timeout it rejects at once; otherwise it saves the raw capture,
then processes or error-writes the report, then settles. -/
def exitHandlerStdinActs (timedOut : Bool) (code : Int)
    (stdout stderr : String) (pkgDir cwd tool outFile : String) :
    List FsAct :=
  if timedOut then [.rejectTimeoutAct]
  else
    let raws := saveRawOutputActs pkgDir tool (combinedOutput stdout stderr)
    if code = 0 ∨ jsTrim stdout ≠ "" then
      let po := processOutputActs pkgDir cwd outFile
      raws ++ po.1 ++ (if po.2 then [.resolveAct] else [.rejectErrAct])
    else
      let we := writeErrorOutputActs pkgDir cwd outFile
      raws ++ we.1 ++ (if we.2 then [.resolveAct] else [.rejectErrAct])

/-- Model of the `executeCodex` exit handler (lines 702-727): on a
fired timeout it rejects at once; otherwise it post-processes the side
file when one is configured, then settles. -/
def exitHandlerCodexActs (timedOut : Bool) (hasRawFile : Bool)
    (pkgDir cwd outFile : String) (rawReadable : Bool)
    (rawContent : String) : List FsAct :=
  if timedOut then [.rejectTimeoutAct]
  else if hasRawFile then
    let pc := processCodexOutputActs pkgDir cwd outFile rawReadable
      rawContent
    pc.1 ++ (if pc.2 then [.resolveAct] else [.rejectErrAct])
  else [.resolveAct]

end Pipeline

example : Pipeline.jsonParse "\x7b\"a\": 1\x7d" =
    some (.obj [("a", .num "1")]) := rfl
example : Pipeline.jsonParse " [1, \"x\", true, null] " =
    some (.arr [.num "1", .str "x", .bool true, .null]) := rfl
example : Pipeline.jsonParse "\x7b\"findings\": [\x7b\"severity\": \"hig\"\x7d\x7d\x7d" = none := rfl
example : Pipeline.jsonParse "\x7b\"a\": -0.5e2\x7d" =
    some (.obj [("a", .num "-0.5e2")]) := rfl
example : Pipeline.jsonParse "hello" = none := rfl
example : Pipeline.jsonParse "" = none := rfl


namespace Pipeline

/-! ### Key-preservation lemmas for object updates -/

theorem find?_map_replace (k k' : String) (v : JVal) (h : k' ≠ k)
    (l : List (String × JVal)) :
    (l.map (fun kv => if kv.1 = k then (k, v) else kv)).find?
        (fun kv => kv.1 = k') =
      l.find? (fun kv => kv.1 = k') := by
  induction l with
  | nil => rfl
  | cons kv rest ih =>
      by_cases hk : kv.1 = k
      · have hne : ¬kv.1 = k' := by rw [hk]; exact Ne.symm h
        simp only [List.map_cons, if_pos hk, List.find?]
        have d1 : (decide (((k, v) : String × JVal).1 = k')) = false := by
          simp [Ne.symm h]
        have d2 : (decide (kv.1 = k')) = false := by simp [hne]
        rw [d1, d2]
        exact ih
      · simp only [List.map_cons, if_neg hk, List.find?]
        cases hd : decide (kv.1 = k') with
        | true => rfl
        | false => exact ih

theorem fieldsGet_set_ne (fields : List (String × JVal)) (k k' : String)
    (v : JVal) (h : k' ≠ k) :
    fieldsGet (fieldsSet fields k v) k' = fieldsGet fields k' := by
  by_cases hf : (fields.find? (fun kv => kv.1 = k)).isSome = true
  · have hs : fieldsSet fields k v =
        fields.map (fun kv => if kv.1 = k then (k, v) else kv) := by
      unfold fieldsSet
      rw [if_pos hf]
    rw [hs]
    unfold fieldsGet
    rw [← List.map_reverse, find?_map_replace k k' v h]
  · have hs : fieldsSet fields k v = fields ++ [(k, v)] := by
      unfold fieldsSet
      rw [if_neg hf]
    rw [hs]
    unfold fieldsGet
    rw [List.reverse_append]
    simp only [List.reverse_cons, List.reverse_nil, List.nil_append,
      List.cons_append, List.find?]
    have hkk : (decide (((k, v) : String × JVal).1 = k')) = false := by
      simp [Ne.symm h]
    rw [hkk]
    simp

theorem find?_map_replace_self (k : String) (v : JVal)
    (l : List (String × JVal)) :
    (l.map (fun kv => if kv.1 = k then (k, v) else kv)).find?
        (fun kv => kv.1 = k) =
      (l.find? (fun kv => kv.1 = k)).map (fun _ => (k, v)) := by
  induction l with
  | nil => rfl
  | cons kv rest ih =>
      by_cases hk : kv.1 = k
      · simp only [List.map_cons, if_pos hk, List.find?]
        simp [hk]
      · simp only [List.map_cons, if_neg hk, List.find?]
        have d2 : (decide (kv.1 = k)) = false := by simp [hk]
        rw [d2]
        exact ih

theorem fieldsGet_set_self (fields : List (String × JVal)) (k : String)
    (v : JVal) : fieldsGet (fieldsSet fields k v) k = some v := by
  by_cases hf : (fields.find? (fun kv => kv.1 = k)).isSome = true
  · have hs : fieldsSet fields k v =
        fields.map (fun kv => if kv.1 = k then (k, v) else kv) := by
      unfold fieldsSet
      rw [if_pos hf]
    rw [hs]
    unfold fieldsGet
    rw [← List.map_reverse, find?_map_replace_self k v]
    have hrev : (fields.reverse.find? (fun kv => kv.1 = k)).isSome = true := by
      rw [List.find?_isSome] at hf ⊢
      obtain ⟨x, hx, hpx⟩ := hf
      exact ⟨x, List.mem_reverse.mpr hx, hpx⟩
    obtain ⟨kv0, hkv0⟩ := Option.isSome_iff_exists.mp hrev
    rw [hkv0]
    rfl
  · have hs : fieldsSet fields k v = fields ++ [(k, v)] := by
      unfold fieldsSet
      rw [if_neg hf]
    rw [hs]
    unfold fieldsGet
    rw [List.reverse_append]
    simp

theorem jget_jset_ne {d d2 : JVal} {k : String} {v : JVal}
    (hset : jset d k v = some d2) (k' : String) (h : k' ≠ k) :
    jget d2 k' = jget d k' := by
  cases d with
  | obj fields =>
      have : d2 = .obj (fieldsSet fields k v) := by
        simpa [jset] using hset.symm
      rw [this]
      exact fieldsGet_set_ne fields k k' v h
  | null => simp [jset] at hset
  | bool b => simp [jset] at hset
  | num s => simp [jset] at hset
  | str s => simp [jset] at hset
  | arr xs => simp [jset] at hset

theorem jget_jset_self {d d2 : JVal} {k : String} {v : JVal}
    (hset : jset d k v = some d2) : jget d2 k = some v := by
  cases d with
  | obj fields =>
      have : d2 = .obj (fieldsSet fields k v) := by
        simpa [jset] using hset.symm
      rw [this]
      exact fieldsGet_set_self fields k v
  | null => simp [jset] at hset
  | bool b => simp [jset] at hset
  | num s => simp [jset] at hset
  | str s => simp [jset] at hset
  | arr xs => simp [jset] at hset

theorem jget_backfill_ne {d d2 : JVal} {k : String} {v : JVal}
    (hb : backfill d k v = some d2) (k' : String) (h : k' ≠ k) :
    jget d2 k' = jget d k' := by
  unfold backfill at hb
  split at hb
  · exact jget_jset_ne hb k' h
  · rw [Option.some.inj hb]

theorem jget_jsetIn_ne {d d2 : JVal} {k1 k2 : String} {v : JVal}
    (hb : jsetIn d k1 k2 v = some d2) (k' : String) (h : k' ≠ k1) :
    jget d2 k' = jget d k' := by
  unfold jsetIn at hb
  split at hb
  · split at hb
    · exact jget_jset_ne hb k' h
    · exact absurd hb (by simp)
  · exact absurd hb (by simp)

theorem jget_fixTestsExecuted_ne {d d2 : JVal}
    (hb : fixTestsExecuted d = some d2) (k' : String)
    (h : k' ≠ "tests") : jget d2 k' = jget d k' := by
  unfold fixTestsExecuted at hb
  split at hb
  case h_1 tests heq =>
    split at hb
    · split at hb
      · exact jget_jset_ne hb k' h
      · exact absurd hb (by simp)
    · split at hb
      · exact jget_jset_ne hb k' h
      · exact absurd hb (by simp)
    · rw [Option.some.inj hb]
    · split at hb
      · exact jget_jset_ne hb k' h
      · exact absurd hb (by simp)
  case h_2 => exact absurd hb (by simp)

theorem jget_fixTestsCoverage_ne {d d2 : JVal}
    (hb : fixTestsCoverage d = some d2) (k' : String)
    (h : k' ≠ "tests") : jget d2 k' = jget d k' := by
  unfold fixTestsCoverage at hb
  split at hb
  · split at hb <;>
      first
        | rw [Option.some.inj hb]
        | exact jget_jsetIn_ne hb k' h
        | (split at hb <;>
            first
              | exact jget_jsetIn_ne hb k' h
              | (split at hb <;> exact jget_jsetIn_ne hb k' h))
  · rw [Option.some.inj hb]

theorem optBind_some {α β : Type} {x : Option α} {f : α → Option β}
    {b : β} (h : (x >>= f) = some b) : ∃ a, x = some a ∧ f a = some b := by
  cases x with
  | none => simp at h
  | some a => exact ⟨a, rfl, h⟩

theorem obind_some {x : Option JVal} {f : JVal → Option JVal} {b : JVal}
    (h : obind x f = some b) : ∃ a, x = some a ∧ f a = some b := by
  cases x with
  | none => simp [obind] at h
  | some a => exact ⟨a, rfl, h⟩

/-- The backfilling tail of `normalizeReport` touches only the
schema's own top-level keys; any other key (in particular `tool` and
`model`) is preserved. -/
theorem jget_fixPrShape_ne {d d2 : JVal} (hb : fixPrShape d = some d2)
    (k' : String) (h : k' ≠ "pr") : jget d2 k' = jget d k' := by
  unfold fixPrShape at hb
  split at hb
  · exact jget_jset_ne hb k' h
  · rw [Option.some.inj hb]

theorem jget_fixPrRepo_ne {env : EnvN} {d d2 : JVal}
    (hb : fixPrRepo env d = some d2) (k' : String) (h : k' ≠ "pr") :
    jget d2 k' = jget d k' := by
  unfold fixPrRepo at hb
  split at hb
  · exact jget_jsetIn_ne hb k' h
  · rw [Option.some.inj hb]

theorem jget_fixPrNumber_ne {env : EnvN} {d d2 : JVal}
    (hb : fixPrNumber env d = some d2) (k' : String) (h : k' ≠ "pr") :
    jget d2 k' = jget d k' := by
  unfold fixPrNumber at hb
  split at hb
  · exact jget_jsetIn_ne hb k' h
  · rw [Option.some.inj hb]

theorem jget_fixPrHeadSha_ne {env : EnvN} {d d2 : JVal}
    (hb : fixPrHeadSha env d = some d2) (k' : String) (h : k' ≠ "pr") :
    jget d2 k' = jget d k' := by
  unfold fixPrHeadSha at hb
  split at hb
  · exact jget_jsetIn_ne hb k' h
  · rw [Option.some.inj hb]

theorem jget_fixPrBranch_ne {env : EnvN} {d d2 : JVal}
    (hb : fixPrBranch env d = some d2) (k' : String) (h : k' ≠ "pr") :
    jget d2 k' = jget d k' := by
  unfold fixPrBranch at hb
  split at hb
  · exact jget_jsetIn_ne hb k' h
  · rw [Option.some.inj hb]

theorem jget_fixPrLink_ne {env : EnvN} {d d2 : JVal}
    (hb : fixPrLink env d = some d2) (k' : String) (h : k' ≠ "pr") :
    jget d2 k' = jget d k' := by
  unfold fixPrLink at hb
  split at hb
  · exact jget_jsetIn_ne hb k' h
  · rw [Option.some.inj hb]

theorem jget_fixTestsDefault_ne {d d2 : JVal}
    (hb : fixTestsDefault d = some d2) (k' : String)
    (h : k' ≠ "tests") : jget d2 k' = jget d k' := by
  unfold fixTestsDefault at hb
  split at hb
  · exact jget_jset_ne hb k' h
  · exact jget_fixTestsExecuted_ne hb k' h

theorem jget_fixEvidenceArr_ne {d d2 : JVal}
    (hb : fixEvidenceArr d = some d2) (k' : String)
    (h : k' ≠ "evidence") : jget d2 k' = jget d k' := by
  unfold fixEvidenceArr at hb
  split at hb
  · split at hb
    · exact jget_jset_ne hb k' h
    · rw [Option.some.inj hb]
  · rw [Option.some.inj hb]

theorem jget_fixAssumptionsArr_ne {d d2 : JVal}
    (hb : fixAssumptionsArr d = some d2) (k' : String)
    (h : k' ≠ "assumptions") : jget d2 k' = jget d k' := by
  unfold fixAssumptionsArr at hb
  split at hb
  · split at hb
    · obtain ⟨as2, _, hset⟩ := optBind_some hb
      exact jget_jset_ne hset k' h
    · rw [Option.some.inj hb]
  · rw [Option.some.inj hb]

theorem jget_fixFindingsArr_ne {d d2 : JVal}
    (hb : fixFindingsArr d = some d2) (k' : String)
    (h : k' ≠ "findings") : jget d2 k' = jget d k' := by
  unfold fixFindingsArr at hb
  split at hb
  · split at hb
    · obtain ⟨fs2, _, hset⟩ := optBind_some hb
      exact jget_jset_ne hset k' h
    · rw [Option.some.inj hb]
  · rw [Option.some.inj hb]

/-- The backfilling tail of `normalizeReport` touches only the
schema's own top-level keys; any other key (in particular `tool` and
`model`) is preserved. -/
theorem normalizeRest_preserves {env : EnvN} {d2 out : JVal}
    (h : normalizeRest env d2 = some out) (k' : String)
    (hks : k' ∉ ["timestamp", "pr", "assumptions", "findings", "metrics",
      "evidence", "tests", "exit_criteria", "summary"]) :
    jget out k' = jget d2 k' := by
  have hk1 : k' ≠ "timestamp" := by intro hc; exact hks (by simp [hc])
  have hk2 : k' ≠ "pr" := by intro hc; exact hks (by simp [hc])
  have hk3 : k' ≠ "assumptions" := by intro hc; exact hks (by simp [hc])
  have hk4 : k' ≠ "findings" := by intro hc; exact hks (by simp [hc])
  have hk5 : k' ≠ "metrics" := by intro hc; exact hks (by simp [hc])
  have hk6 : k' ≠ "evidence" := by intro hc; exact hks (by simp [hc])
  have hk7 : k' ≠ "tests" := by intro hc; exact hks (by simp [hc])
  have hk8 : k' ≠ "exit_criteria" := by intro hc; exact hks (by simp [hc])
  have hk9 : k' ≠ "summary" := by intro hc; exact hks (by simp [hc])
  unfold normalizeRest at h
  obtain ⟨d3, h3, h⟩ := obind_some h
  obtain ⟨d4, h4, h⟩ := obind_some h
  obtain ⟨d5, h5, h⟩ := obind_some h
  obtain ⟨d6, h6, h⟩ := obind_some h
  obtain ⟨d7, h7, h⟩ := obind_some h
  obtain ⟨d8, h8, h⟩ := obind_some h
  obtain ⟨d9, h9, h⟩ := obind_some h
  obtain ⟨d10, h10, h⟩ := obind_some h
  obtain ⟨d11, h11, h⟩ := obind_some h
  obtain ⟨d12, h12, h⟩ := obind_some h
  obtain ⟨d13, h13, h⟩ := obind_some h
  obtain ⟨d14, h14, h⟩ := obind_some h
  obtain ⟨d15, h15, h⟩ := obind_some h
  obtain ⟨d16, h16, h⟩ := obind_some h
  obtain ⟨d17, h17, h⟩ := obind_some h
  obtain ⟨d18, h18, h⟩ := obind_some h
  obtain ⟨d19, h19, h⟩ := obind_some h
  obtain ⟨d20, h20, hlast⟩ := obind_some h
  rw [jget_fixTestsCoverage_ne hlast k' hk7,
    jget_fixFindingsArr_ne h20 k' hk4,
    jget_fixAssumptionsArr_ne h19 k' hk3,
    jget_fixEvidenceArr_ne h18 k' hk6,
    jget_backfill_ne h17 k' hk9,
    jget_backfill_ne h16 k' hk8,
    jget_fixTestsDefault_ne h15 k' hk7,
    jget_backfill_ne h14 k' hk6,
    jget_backfill_ne h13 k' hk5,
    jget_backfill_ne h12 k' hk4,
    jget_backfill_ne h11 k' hk3,
    jget_backfill_ne h10 k' hk1,
    jget_fixPrLink_ne h9 k' hk2,
    jget_fixPrBranch_ne h8 k' hk2,
    jget_fixPrHeadSha_ne h7 k' hk2,
    jget_fixPrNumber_ne h6 k' hk2,
    jget_fixPrRepo_ne h5 k' hk2,
    jget_fixPrShape_ne h4 k' hk2,
    jget_backfill_ne h3 k' hk1]

end Pipeline

namespace Pipeline

/-! ## Claim theorems -/

/-- C10: for every provider identifier absent from the loaded
configuration's providers map, `isProviderEnabled` returns true —
absence of configuration is treated as enabled — and the check returns
false exactly when the configuration carries an explicit
`enabled: false` for that provider. -/
theorem isProviderEnabled_spec (cfg : PipelineCfg) (p : String) :
    (providerLookup cfg p = none → isProviderEnabled cfg p = true) ∧
    (isProviderEnabled cfg p = false ↔
      ∃ pc, providerLookup cfg p = some pc ∧
        pc.enabled = some (.bool false)) := by
  constructor
  · intro h
    simp [isProviderEnabled, h]
  · unfold isProviderEnabled
    cases hl : providerLookup cfg p with
    | none => simp
    | some pc =>
        cases he : pc.enabled with
        | none => simp [he]
        | some v =>
            cases v with
            | bool b =>
                cases b with
                | true => simp [he]
                | false => simp [he]
            | null => simp [he]
            | num s => simp [he]
            | str s => simp [he]
            | arr xs => simp [he]
            | obj fs => simp [he]

/-- Witness for C10: the minimal default configuration treats the
unknown provider "mystery" as enabled. -/
theorem isProviderEnabled_spec_witness :
    isProviderEnabled getMinimalDefaults "mystery" = true :=
  (isProviderEnabled_spec getMinimalDefaults "mystery").1 rfl

/-- Counterexample for C4: the claim says `buildCommand` returns null
and never throws for an identifier outside the whitelist, but for the
provider "foo" — absent from the default configuration — the enabled
check passes (absence means enabled) and `getProviderConfig` then
throws "Provider not configured" before the whitelist check is ever
reached. -/
theorem buildCommand_unconfigured_throws :
    buildCommand getMinimalDefaults "/pkg" "foo" =
      .error "Provider 'foo' not configured" := rfl

/-- C4 (amended): `buildCommand` returns null when the provider is
disabled in configuration, and returns null for a provider outside
the whitelist provided that provider has a configuration entry; for an
identifier with no configuration entry (and not disabled), it instead
throws the `getProviderConfig` error.  The null outcomes build no
descriptor, and descriptor construction itself performs no writes and
starts no subprocess. -/
theorem buildCommand_null_spec (cfg : PipelineCfg) (pkgDir p : String) :
    (isProviderEnabled cfg p = false → buildCommand cfg pkgDir p = .ok none) ∧
    (providerLookup cfg p = none → isProviderEnabled cfg p = true →
      buildCommand cfg pkgDir p =
        .error ("Provider '" ++ p ++ "' not configured")) ∧
    (∀ pc, providerLookup cfg p = some pc → isProviderEnabled cfg p = true →
      ¬p ∈ ["claude", "codex", "gemini"] →
      buildCommand cfg pkgDir p = .ok none) := by
  refine ⟨?_, ?_, ?_⟩
  · intro h
    simp [buildCommand, h]
  · intro hl he
    simp [buildCommand, he, getProviderConfig, hl]
  · intro pc hl he hw
    simp [buildCommand, he, getProviderConfig, hl, hw]

/-- Witness for C4: a configuration carrying a disabled provider and a
configured-but-unwhitelisted provider exercises all three branches. -/
theorem buildCommand_null_spec_witness :
    buildCommand
        { providers := some
            [("claude", { enabled := some (.bool false), model := none,
                          timeout_override := none }),
             ("ripgrep", { enabled := none, model := none,
                           timeout_override := none })],
          executionTimeoutSeconds := none } "/pkg" "claude" = .ok none ∧
      buildCommand getMinimalDefaults "/pkg" "foo" =
        .error ("Provider '" ++ "foo" ++ "' not configured") ∧
      buildCommand
        { providers := some
            [("claude", { enabled := some (.bool false), model := none,
                          timeout_override := none }),
             ("ripgrep", { enabled := none, model := none,
                           timeout_override := none })],
          executionTimeoutSeconds := none } "/pkg" "ripgrep" = .ok none := by
  refine ⟨?_, ?_, ?_⟩
  · exact (buildCommand_null_spec _ "/pkg" "claude").1 rfl
  · exact (buildCommand_null_spec getMinimalDefaults "/pkg" "foo").2.1 rfl rfl
  · exact (buildCommand_null_spec _ "/pkg" "ripgrep").2.2 _ rfl rfl (by decide)

end Pipeline

namespace Pipeline

/-- Counterexample for C5: the claim says every execution path
escalates to a forceful kill after the 5-second grace window and never
hangs; on the codex path the timeout handler sends only SIGTERM (no
grace timer exists in `executeCodex`), so a process that ignores
SIGTERM never exits and the run never settles. -/
theorem codex_timeout_hangs :
    executeCodexRun ⟨none, false, 0⟩ 100 = .hang ∧
      ¬"SIGKILL" ∈ signalsSentCodex := by
  exact ⟨rfl, by decide⟩

/-- C5 (amended): when the configured timeout fires, the process
receives a graceful SIGTERM on both paths; if the process exits in
response, the run rejects with the distinguishable timed-out error at
`timeout` plus the process's own termination delay.  No forceful
SIGKILL is ever delivered: the codex path has no grace timer at all,
and the stdin path's grace timer is guarded by `proc.killed`, which
Node sets as soon as the SIGTERM was delivered — so a process that
ignores SIGTERM leaves either run hanging. -/
theorem timeout_behavior_spec (p : ProcBeh) (timeout : Nat)
    (hready : p.exitsEarly = none) :
    (p.termResponsive = true →
      executeStdinRun p timeout = .timedOutErr (timeout + p.termDelay) ∧
      executeCodexRun p timeout = .timedOutErr (timeout + p.termDelay)) ∧
    (p.termResponsive = false →
      executeStdinRun p timeout = .hang ∧
      executeCodexRun p timeout = .hang) ∧
    signalsSentStdin = ["SIGTERM"] ∧ signalsSentCodex = ["SIGTERM"] := by
  refine ⟨?_, ?_, rfl, rfl⟩
  · intro hr
    constructor
    · simp [executeStdinRun, runWithTimeout, hready, hr]
    · simp [executeCodexRun, runWithTimeout, hready, hr]
  · intro hr
    constructor
    · simp [executeStdinRun, runWithTimeout, hready, hr,
        stdinPathSendsSigkill, killedFlagAfterSigterm]
    · simp [executeCodexRun, runWithTimeout, hready, hr]

/-- Witness for C5: a SIGTERM-responsive process under a 100-second
timeout rejects with the timed-out error 3 seconds after the signal. -/
theorem timeout_behavior_spec_witness :
    executeStdinRun ⟨none, true, 3⟩ 100 = .timedOutErr 103 ∧
      executeCodexRun ⟨none, true, 3⟩ 100 = .timedOutErr 103 :=
  (timeout_behavior_spec ⟨none, true, 3⟩ 100 rfl).1 rfl

end Pipeline

namespace Pipeline

theorem deleteAct_not_in_saveRaw (pkgDir tool content : String)
    (p : String) : FsAct.deleteAct p ∉ saveRawOutputActs pkgDir tool content := by
  unfold saveRawOutputActs
  split <;> simp

theorem deleteAct_not_in_processOutput (pkgDir cwd outFile : String)
    (p : String) :
    FsAct.deleteAct p ∉ (processOutputActs pkgDir cwd outFile).1 := by
  unfold processOutputActs
  split <;> simp

theorem deleteAct_not_in_writeErrorOutput (pkgDir cwd outFile : String)
    (p : String) :
    FsAct.deleteAct p ∉ (writeErrorOutputActs pkgDir cwd outFile).1 := by
  unfold writeErrorOutputActs
  split <;> simp

theorem deleteAct_not_in_processCodexOutput (pkgDir cwd outFile : String)
    (rawReadable : Bool) (rawContent : String) (p : String) :
    FsAct.deleteAct p ∉
      (processCodexOutputActs pkgDir cwd outFile rawReadable rawContent).1 := by
  unfold processCodexOutputActs
  split
  · simp only [List.mem_cons, List.mem_append]
    intro hc
    rcases hc with hc | hc
    · exact absurd hc (by simp)
    · exact deleteAct_not_in_writeErrorOutput pkgDir cwd outFile p hc
  · split
    · intro hc
      rcases List.mem_append.mp hc with hc | hc
      · rcases List.mem_append.mp hc with hc | hc
        · simp at hc
        · simp at hc
      · exact deleteAct_not_in_writeErrorOutput pkgDir cwd outFile p hc
    · simp

theorem deleteAct_not_in_exitHandlerStdin (timedOut : Bool) (code : Int)
    (stdout stderr pkgDir cwd tool outFile : String) (p : String) :
    FsAct.deleteAct p ∉
      exitHandlerStdinActs timedOut code stdout stderr pkgDir cwd tool
        outFile := by
  unfold exitHandlerStdinActs
  split
  · simp
  · split
    · simp only [List.mem_append]
      intro hc
      rcases hc with (hc | hc) | hc
      · exact deleteAct_not_in_saveRaw pkgDir tool _ p hc
      · exact deleteAct_not_in_processOutput pkgDir cwd outFile p hc
      · split at hc <;> simp at hc
    · simp only [List.mem_append]
      intro hc
      rcases hc with (hc | hc) | hc
      · exact deleteAct_not_in_saveRaw pkgDir tool _ p hc
      · exact deleteAct_not_in_writeErrorOutput pkgDir cwd outFile p hc
      · split at hc <;> simp at hc

theorem deleteAct_not_in_exitHandlerCodex (timedOut hasRawFile : Bool)
    (pkgDir cwd outFile : String) (rawReadable : Bool)
    (rawContent : String) (p : String) :
    FsAct.deleteAct p ∉
      exitHandlerCodexActs timedOut hasRawFile pkgDir cwd outFile
        rawReadable rawContent := by
  unfold exitHandlerCodexActs
  split
  · simp
  · split
    · simp only [List.mem_append]
      intro hc
      rcases hc with hc | hc
      · exact deleteAct_not_in_processCodexOutput pkgDir cwd outFile
          rawReadable rawContent p hc
      · split at hc <;> simp at hc
    · simp

end Pipeline

namespace Pipeline

/-- Counterexample for C3: the claim says the raw combined output is
persisted regardless of success, failure, or timeout; but when the
timeout has fired, the exit handler of `executeWithStdin` rejects
immediately — before `saveRawOutput` — so nothing is persisted for a
timed-out invocation.  Here the process produced output ("late
output") yet the trace holds no raw write at all. -/
theorem timeout_skips_raw_persist :
    exitHandlerStdinActs true 0 "late output" "" "/pkg" "/cwd"
        "claude-code" "/pkg/workspace/reports/claude-code.json" =
      [.rejectTimeoutAct] ∧
    ∀ p c, FsAct.saveRawWriteAct p c ∉
      exitHandlerStdinActs true 0 "late output" "" "/pkg" "/cwd"
        "claude-code" "/pkg/workspace/reports/claude-code.json" := by
  refine ⟨rfl, ?_⟩
  intro p c
  simp [exitHandlerStdinActs]

/-- C3 (amended): for every non-timed-out exit of the stdin path
(Claude/Gemini tools), the raw combined output (stdout if non-empty,
else stderr, else the placeholder) is written to the fixed per-tool
raw location strictly before the normalizer runs; the codex path
likewise copies its raw side file before normalizing; and no stage of
either exit handler ever deletes a file.  When the timeout fired, the
run instead rejects without persisting anything. -/
theorem raw_persist_order_spec (code : Int)
    (stdout stderr pkgDir cwd tool outFile : String)
    (htool : tool = "claude-code" ∨ tool = "gemini-cli") :
    (∃ rest, exitHandlerStdinActs false code stdout stderr pkgDir cwd tool
        outFile =
      saveRawOutputActs pkgDir tool (combinedOutput stdout stderr) ++ rest) ∧
    FsAct.saveRawWriteAct
        (pkgDir ++ "/workspace/reports/raw" ++ "/" ++ tool ++ ".raw.txt")
        (combinedOutput stdout stderr) ∈
      saveRawOutputActs pkgDir tool (combinedOutput stdout stderr) ∧
    FsAct.spawnNormalizerAct ∉
      saveRawOutputActs pkgDir tool (combinedOutput stdout stderr) ∧
    (∀ rc, ∃ rest,
      (processCodexOutputActs pkgDir cwd outFile true rc).1 =
        [.readAct (pkgDir ++ "/workspace/reports/codex-cli.raw.txt"),
         .mkdirAct (pkgDir ++ "/workspace/reports/raw"),
         .saveRawWriteAct (pkgDir ++ "/workspace/reports/raw" ++
           "/codex-cli.raw.txt") rc,
         .spawnNormalizerAct] ++ rest) ∧
    (∀ p, FsAct.deleteAct p ∉
      exitHandlerStdinActs false code stdout stderr pkgDir cwd tool
        outFile) ∧
    (∀ timedOut hasRawFile rawReadable rc p, FsAct.deleteAct p ∉
      exitHandlerCodexActs timedOut hasRawFile pkgDir cwd outFile
        rawReadable rc) := by
  have htoolne : ¬tool = "codex-cli" := by
    rcases htool with h | h <;> (rw [h]; decide)
  refine ⟨?_, ?_, ?_, ?_, ?_, ?_⟩
  · unfold exitHandlerStdinActs
    split
    · next hcond => exact absurd hcond (by decide)
    · split
      · exact ⟨_, (List.append_assoc _ _ _)⟩
      · exact ⟨_, (List.append_assoc _ _ _)⟩
  · unfold saveRawOutputActs
    rw [if_neg htoolne]
    simp
  · unfold saveRawOutputActs
    rw [if_neg htoolne]
    simp
  · intro rc
    unfold processCodexOutputActs
    split
    · next hcond => simp at hcond
    · split
      · exact ⟨_, by dsimp only; rw [List.append_assoc]⟩
      · exact ⟨_, by dsimp only⟩
  · intro p
    exact deleteAct_not_in_exitHandlerStdin false code stdout stderr pkgDir
      cwd tool outFile p
  · intro timedOut hasRawFile rawReadable rc p
    exact deleteAct_not_in_exitHandlerCodex timedOut hasRawFile pkgDir cwd
      outFile rawReadable rc p

/-- Witness for C3: a successful claude-code invocation writing
"hello" persists the raw capture first. -/
theorem raw_persist_order_spec_witness :
    (∃ rest, exitHandlerStdinActs false 0 "hello" "" "/pkg" "/cwd"
        "claude-code" "/pkg/workspace/reports/claude-code.json" =
      saveRawOutputActs "/pkg" "claude-code"
        (combinedOutput "hello" "") ++ rest) ∧
    FsAct.saveRawWriteAct
        ("/pkg" ++ "/workspace/reports/raw" ++ "/" ++ "claude-code" ++
          ".raw.txt") (combinedOutput "hello" "") ∈
      saveRawOutputActs "/pkg" "claude-code" (combinedOutput "hello" "") :=
  ⟨(raw_persist_order_spec 0 "hello" "" "/pkg" "/cwd" "claude-code"
      "/pkg/workspace/reports/claude-code.json" (Or.inl rfl)).1,
   (raw_persist_order_spec 0 "hello" "" "/pkg" "/cwd" "claude-code"
      "/pkg/workspace/reports/claude-code.json" (Or.inl rfl)).2.1⟩

end Pipeline


namespace Pipeline

/-- Counterexample for C6: the claim says an escaping output path is
rejected before any filesystem write occurs for that invocation; on
the codex exit path with a traversal output path, the raw side file is
read, the raw directory created and the raw copy written — all before
`validateOutputPath` throws (twice: once in `processCodexOutput`, once
in the `writeErrorOutput` fallback). -/
theorem codex_stage_writes_before_path_reject :
    exitHandlerCodexActs false true "/pkg" "/cwd"
        "/pkg/workspace/reports/../../../etc/x.json" true "raw" =
      [.readAct "/pkg/workspace/reports/codex-cli.raw.txt",
       .mkdirAct "/pkg/workspace/reports/raw",
       .saveRawWriteAct "/pkg/workspace/reports/raw/codex-cli.raw.txt"
         "raw",
       .spawnNormalizerAct,
       .pathErrorAct "/pkg/workspace/reports/../../../etc/x.json",
       .pathErrorAct "/pkg/workspace/reports/../../../etc/x.json",
       .rejectErrAct] ∧
    validateOutputPath "/pkg" "/cwd"
        "/pkg/workspace/reports/../../../etc/x.json" =
      .error ("Invalid output path contains directory traversal: " ++
        "/pkg/workspace/reports/../../../etc/x.json") :=
  ⟨rfl, rfl⟩

theorem writeAct_not_in_saveRaw (pkgDir tool content p : String) :
    FsAct.writeAct p ∉ saveRawOutputActs pkgDir tool content := by
  unfold saveRawOutputActs
  split <;> simp

/-- C6 (amended): an output path containing a `..` traversal segment
is rejected by `validateOutputPath` with the fatal traversal error,
and no stage ever writes to the requested (validated) report path —
the `writeAct` that targets it is only emitted after a successful
validation.  The raw-capture writes to the fixed raw directory,
however, do occur earlier in the same invocation, so the rejection is
not before every filesystem write of the invocation. -/
theorem path_traversal_rejected_spec (pkgDir cwd outFile : String)
    (hbad : strIncludes outFile ".." = true) :
    validateOutputPath pkgDir cwd outFile =
      .error ("Invalid output path contains directory traversal: " ++
        outFile) ∧
    (∀ p, FsAct.writeAct p ∉ (processOutputActs pkgDir cwd outFile).1) ∧
    (∀ p, FsAct.writeAct p ∉ (writeErrorOutputActs pkgDir cwd outFile).1) ∧
    (∀ rawReadable rc p, FsAct.writeAct p ∉
      (processCodexOutputActs pkgDir cwd outFile rawReadable rc).1) ∧
    (∀ timedOut code stdout stderr tool p, FsAct.writeAct p ∉
      exitHandlerStdinActs timedOut code stdout stderr pkgDir cwd tool
        outFile) := by
  have hval : validateOutputPath pkgDir cwd outFile =
      .error ("Invalid output path contains directory traversal: " ++
        outFile) := by
    unfold validateOutputPath
    rw [if_pos hbad]
  have hwe : ∀ p, FsAct.writeAct p ∉
      (writeErrorOutputActs pkgDir cwd outFile).1 := by
    intro p
    unfold writeErrorOutputActs
    rw [hval]
    simp
  have hpo : ∀ p, FsAct.writeAct p ∉
      (processOutputActs pkgDir cwd outFile).1 := by
    intro p
    unfold processOutputActs
    rw [hval]
    simp
  refine ⟨hval, hpo, hwe, ?_, ?_⟩
  · intro rawReadable rc p
    unfold processCodexOutputActs
    split
    · intro hc
      rcases List.mem_append.mp hc with hc | hc
      · simp at hc
      · exact hwe p hc
    · rw [hval]
      intro hc
      rcases List.mem_append.mp hc with hc | hc
      · rcases List.mem_append.mp hc with hc | hc
        · simp at hc
        · simp at hc
      · exact hwe p hc
  · intro timedOut code stdout stderr tool p
    unfold exitHandlerStdinActs
    split
    · simp
    · split
      · intro hc
        rcases List.mem_append.mp hc with hc | hc
        · rcases List.mem_append.mp hc with hc | hc
          · exact writeAct_not_in_saveRaw pkgDir tool _ p hc
          · exact hpo p hc
        · split at hc <;> simp at hc
      · intro hc
        rcases List.mem_append.mp hc with hc | hc
        · rcases List.mem_append.mp hc with hc | hc
          · exact writeAct_not_in_saveRaw pkgDir tool _ p hc
          · exact hwe p hc
        · split at hc <;> simp at hc

/-- Witness for C6: the traversal path of the counterexample is
rejected and the stdin exit handler writes to no report path. -/
theorem path_traversal_rejected_spec_witness :
    validateOutputPath "/pkg" "/cwd"
        "/pkg/workspace/reports/../../../etc/x.json" =
      .error ("Invalid output path contains directory traversal: " ++
        "/pkg/workspace/reports/../../../etc/x.json") ∧
    (∀ p, FsAct.writeAct p ∉
      (processOutputActs "/pkg" "/cwd"
        "/pkg/workspace/reports/../../../etc/x.json").1) :=
  ⟨(path_traversal_rejected_spec "/pkg" "/cwd"
      "/pkg/workspace/reports/../../../etc/x.json" rfl).1,
   (path_traversal_rejected_spec "/pkg" "/cwd"
      "/pkg/workspace/reports/../../../etc/x.json" rfl).2.1⟩

end Pipeline

namespace Pipeline

/-- Counterexample for C8: on the spec's own test input (a cut
mid-string), the repair closes the open string but then appends three
braces — `lastIndexOf('\x7b') > lastIndexOf('[')` keeps choosing a brace
because already-closed braces still count — instead of the needed
`\x7d]\x7d`, so the repaired text does not parse and recovery falls back to
the synthetic error object rather than returning a bracket-closed
parseable object. -/
theorem recovery_spec_input_not_bracket_closed :
    recoveryRepair "\x7b\"findings\": [\x7b\"severity\": \"hig" =
      "\x7b\"findings\": [\x7b\"severity\": \"hig\"\x7d\x7d\x7d" ∧
    jsonParse (recoveryRepair "\x7b\"findings\": [\x7b\"severity\": \"hig") =
      none ∧
    attemptJSONRecovery "\x7b\"findings\": [\x7b\"severity\": \"hig" =
      .obj [("error", .str "truncated_json"),
            ("partial_data", .str "\x7b\"findings\": [\x7b\"severity\": \"hig"),
            ("recovery_attempted", .bool true)] :=
  ⟨rfl, rfl, rfl⟩

/-- C8 (amended): recovery closes any open string, patches a trailing
separator and appends one closing bracket per open depth level chosen
by a last-occurrence heuristic (not necessarily the minimum correct
closers); when the repaired text parses, that value is returned, and
otherwise — as happens on the input `\x7b"findings": [\x7b"severity": "hig` —
recovery returns the synthetic error-tagged object carrying the first
500 characters of the original text, never an unhandled error. -/
theorem recovery_fallback_spec (s : String) :
    ((jsonParse (recoveryRepair s)).isNone = true →
      attemptJSONRecovery s =
        .obj [("error", .str "truncated_json"),
              ("partial_data", .str (String.mk (s.toList.take 500))),
              ("recovery_attempted", .bool true)]) ∧
    (∀ v, jsonParse (recoveryRepair s) = some v →
      attemptJSONRecovery s = v) := by
  constructor
  · intro h
    unfold attemptJSONRecovery
    rw [Option.isNone_iff_eq_none] at h
    rw [h]
  · intro v h
    unfold attemptJSONRecovery
    rw [h]

/-- Witness for C8: the spec's truncated input takes the synthetic
branch; a repairable input (`["a"` → `["a"]`) takes the parse branch. -/
theorem recovery_fallback_spec_witness :
    attemptJSONRecovery "\x7b\"findings\": [\x7b\"severity\": \"hig" =
      .obj [("error", .str "truncated_json"),
            ("partial_data",
              .str (String.mk
                ("\x7b\"findings\": [\x7b\"severity\": \"hig".toList.take 500))),
            ("recovery_attempted", .bool true)] ∧
    attemptJSONRecovery "[\"a\"" = .arr [.str "a"] :=
  ⟨(recovery_fallback_spec "\x7b\"findings\": [\x7b\"severity\": \"hig").1 rfl,
   (recovery_fallback_spec "[\"a\"").2 (.arr [.str "a"]) rfl⟩

end Pipeline

namespace Pipeline

/-- A representative execution environment for concrete runs: the
builder-set tool and model tags, no PR context, a fixed clock. -/
def envT : EnvN :=
  { TOOL := some "claude-code", MODEL := some "opus", PR_REPO := none,
    PR_NUMBER := none, HEAD_SHA := none, PR_BRANCH := none,
    RUN_URL := none, now := "T0" }

/-- Counterexample for C2: the claim says every normalization result
satisfies the fixed report schema; but the well-formed input
`\x7b"a": 1\x7d` is extracted as a whole-text parse and — carrying none of
`findings`/`assumptions`/`tests` — is printed unmodified, so the
composite operation resolves with an object that has none of the
schema's required fields. -/
theorem normalize_passthrough_not_schema :
    executorNormalizeJson envT "\x7b\"a\": 1\x7d" =
      .obj [("a", .num "1")] ∧
    reportSchemaOK (executorNormalizeJson envT "\x7b\"a\": 1\x7d") =
      false :=
  ⟨rfl, rfl⟩

/-- C2 (amended): the composite normalization
(`ProviderExecutor.normalizeJson`) is total — it resolves with the
normalizer's output when the child succeeds, and with the error-tagged
fallback report otherwise; whenever extraction or normalization fails
(including the empty input, binary noise, and text without JSON), the
resolved report carries an `error` tag, an empty findings list, and
`ready_for_pr: false`.  It does not, however, always satisfy the fixed
report schema (see the counterexample). -/
theorem normalize_total_spec (env : EnvN) (input : String) :
    (∀ j, mainStdin (executorChildEnv env) input = some j →
      executorNormalizeJson env input = j) ∧
    (mainStdin (executorChildEnv env) input = none →
      jget (executorNormalizeJson env input) "error" =
          some (.str "Failed to normalize output") ∧
        jget (executorNormalizeJson env input) "findings" =
          some (.arr []) ∧
        jget ((jget (executorNormalizeJson env input)
            "exit_criteria").getD .null) "ready_for_pr" =
          some (.bool false)) := by
  constructor
  · intro j h
    unfold executorNormalizeJson
    rw [h]
  · intro h
    unfold executorNormalizeJson
    rw [h]
    exact ⟨rfl, rfl, rfl⟩

/-- Witness for C2: the inputs "hello" (no JSON at all) and "" (empty)
make the child fail, and the composite resolves with the error-tagged
not-ready report. -/
theorem normalize_total_spec_witness :
    (jget (executorNormalizeJson envT "hello") "error" =
        some (.str "Failed to normalize output") ∧
      jget (executorNormalizeJson envT "hello") "findings" =
        some (.arr []) ∧
      jget ((jget (executorNormalizeJson envT "hello")
          "exit_criteria").getD .null) "ready_for_pr" =
        some (.bool false)) ∧
    jget (executorNormalizeJson envT "") "findings" = some (.arr []) :=
  ⟨(normalize_total_spec envT "hello").2 rfl,
   ((normalize_total_spec envT "").2 rfl).2.1⟩

end Pipeline

namespace Pipeline

theorem normalizeReport_keeps_tool {env : EnvN} {tool data out : JVal}
    (h : normalizeReport env tool data = some out)
    (ht : truthy tool = true) : jget out "tool" = some tool := by
  unfold normalizeReport at h
  obtain ⟨d1, h1, h⟩ := obind_some h
  obtain ⟨d2, h2, hrest⟩ := obind_some h
  have htool1 : jget d1 "tool" = some tool := by
    rw [if_pos ht] at h1
    exact jget_jset_self h1
  have htool2 : jget d2 "tool" = jget d1 "tool" := by
    cases hM : env.MODEL with
    | none =>
        rw [hM] at h2
        dsimp only at h2
        rw [Option.some.inj h2]
    | some m =>
        rw [hM] at h2
        dsimp only at h2
        by_cases hm : m = ""
        · rw [if_neg (by simp [hm])] at h2
          rw [Option.some.inj h2]
        · rw [if_pos hm] at h2
          exact jget_jset_ne h2 "tool" (by decide)
  rw [normalizeRest_preserves hrest "tool" (by decide), htool2, htool1]

theorem normalizeReport_sets_model {env : EnvN} {tool data out : JVal}
    {m : String} (h : normalizeReport env tool data = some out)
    (hm : env.MODEL = some m) (hne : m ≠ "") :
    jget out "model" = some (.str m) := by
  unfold normalizeReport at h
  obtain ⟨d1, h1, h⟩ := obind_some h
  obtain ⟨d2, h2, hrest⟩ := obind_some h
  have hmodel : jget d2 "model" = some (.str m) := by
    rw [hm] at h2
    dsimp only at h2
    rw [if_pos hne] at h2
    exact jget_jset_self h2
  rw [normalizeRest_preserves hrest "model" (by decide), hmodel]

end Pipeline

namespace Pipeline

/-- The self-reporting input of the C7 counterexample. -/
def evilIn : JVal :=
  .obj [("tool", .str "evil"), ("model", .str "x"), ("findings", .arr [])]

/-- The normalized result of `evilIn` under `envT`: the self-reported
tool survives, the model is overwritten from the environment. -/
def evilOut : JVal :=
  .obj [("tool", .str "evil"), ("model", .str "opus"),
        ("findings", .arr []),
        ("timestamp", .str "T0"),
        ("pr", .obj [("repo", .str "unknown"), ("number", .num "0"),
          ("head_sha", .str ""), ("branch", .str "unknown"),
          ("link", .str "https://github.com/")]),
        ("assumptions", .arr []), ("metrics", .obj []),
        ("evidence", .arr []),
        ("tests", emptyTests),
        ("exit_criteria", .obj [("ready_for_pr", .bool false),
          ("reasons", .arr [])]),
        ("summary", .str "No summary provided")]

/-- Counterexample for C7: the claim says the backfilling step always
overwrites the tool id with the pipeline's own value; here the
pipeline's environment says `TOOL=claude-code`, yet the normalized
report keeps the tool's self-reported "evil" — the detection
`json.tool || process.env.TOOL` prefers the self-report. -/
theorem self_reported_tool_kept :
    (mainStdin (executorChildEnv envT)
        "\x7b\"tool\":\"evil\",\"model\":\"x\",\"findings\":[]\x7d").bind
      (fun r => jget r "tool") = some (.str "evil") ∧
    (executorChildEnv envT).TOOL = some "claude-code" :=
  ⟨rfl, rfl⟩

/-- C7 (amended): the backfilling step overwrites the model id with
the environment's value whenever one is provided, but the tool id is
overwritten only with the *detected* tool value, and detection prefers
the report's own self-reported `tool` field over the pipeline's
environment value; only a report without a truthy self-report receives
the pipeline's tool id. -/
theorem backfill_tool_model_spec :
    (∀ env tool data out, normalizeReport env tool data = some out →
      (truthy tool = true → jget out "tool" = some tool) ∧
      (∀ m, env.MODEL = some m → m ≠ "" →
        jget out "model" = some (.str m))) ∧
    (∀ env json, truthyOpt (jget json "tool") = true →
      detectTool env json = (jget json "tool").getD .null) := by
  constructor
  · intro env tool data out h
    exact ⟨fun ht => normalizeReport_keeps_tool h ht,
           fun m hm hne => normalizeReport_sets_model h hm hne⟩
  · intro env json ht
    unfold detectTool
    rw [if_pos ht]

/-- Witness for C7: normalizing `evilIn` under `envT` keeps the
self-reported tool and takes the environment's model. -/
theorem backfill_tool_model_spec_witness :
    jget evilOut "tool" = some (.str "evil") ∧
      jget evilOut "model" = some (.str "opus") :=
  ⟨(backfill_tool_model_spec.1 envT (.str "evil") evilIn evilOut rfl).1
      rfl,
   (backfill_tool_model_spec.1 envT (.str "evil") evilIn evilOut
      rfl).2 "opus" rfl (by decide)⟩

end Pipeline

namespace Pipeline

theorem obind_pres_key {x : Option JVal} {f : JVal → Option JVal}
    {b : JVal} (h : obind x f = some b) :
    ∃ a, x = some a ∧ f a = some b := obind_some h

/-- The category step of `fixFinding` leaves `severity` unchanged. -/
theorem fixFinding_cat_step_pres {f f1 : JVal}
    (hc : (if truthyOpt (jget f "category") then
            match jget f "category" with
            | some (.str c) => jset f "category" (.str (mapCategory c))
            | _ => none
          else some f) = some f1) (k' : String) (hk : k' ≠ "category") :
    jget f1 k' = jget f k' := by
  split at hc
  · split at hc
    · exact jget_jset_ne hc k' hk
    · exact absurd hc (by simp)
  · rw [Option.some.inj hc]

/-- The severity step of `fixFinding` leaves other keys unchanged. -/
theorem fixFinding_sev_step_pres {f1 f2 : JVal}
    (hs : (if truthyOpt (jget f1 "severity") then
            match jget f1 "severity" with
            | some (.str s) => jset f1 "severity" (.str (mapSeverity s))
            | _ => none
          else some f1) = some f2) (k' : String) (hk : k' ≠ "severity") :
    jget f2 k' = jget f1 k' := by
  split at hs
  · split at hs
    · exact jget_jset_ne hs k' hk
    · exact absurd hs (by simp)
  · rw [Option.some.inj hs]

/-- The evidence step of `fixFinding` leaves other keys unchanged. -/
theorem fixFinding_ev_step_pres {f2 out : JVal}
    (he : (if truthyOpt (jget f2 "evidence") ∧
            isArr ((jget f2 "evidence").getD .null) then
            match jget f2 "evidence" with
            | some (.arr es) =>
                jset f2 "evidence" (.arr (es.map flattenEvidenceElem))
            | _ => some f2
          else some f2) = some out) (k' : String)
    (hk : k' ≠ "evidence") : jget out k' = jget f2 k' := by
  split at he
  · split at he
    · exact jget_jset_ne he k' hk
    · rw [Option.some.inj he]
  · rw [Option.some.inj he]

end Pipeline

namespace Pipeline

theorem enum_lower_mem (s : String)
    (h : s ∈ (["critical", "high", "medium", "low"] : List String)) :
    jsLower s ∈ (["critical", "blocker", "high", "major", "medium",
      "moderate", "low", "minor", "trivial"] : List String) := by
  simp only [List.mem_cons, List.not_mem_nil, or_false] at h
  rcases h with h | h | h | h <;> (rw [h]; decide)

theorem mapSeverity_mem (s : String) :
    mapSeverity s ∈ (["critical", "high", "medium", "low"] :
      List String) := by
  unfold mapSeverity
  dsimp only
  repeat' split
  all_goals first
    | decide
    | (rename_i hmem; exact not_not.mp hmem)

theorem mapCategory_mem (s : String) :
    mapCategory s ∈ (["security", "correctness", "performance",
      "testing", "architecture", "style", "maintainability", "docs"] :
      List String) := by
  unfold mapCategory
  dsimp only
  repeat' split
  all_goals first
    | decide
    | (rename_i hmem; exact not_not.mp hmem)

theorem mapSeverity_unrecognized (s : String)
    (h : jsLower s ∉ (["critical", "blocker", "high", "major", "medium",
      "moderate", "low", "minor", "trivial"] : List String)) :
    mapSeverity s = "low" := by
  have n1 : ¬(jsLower s = "critical" ∨ jsLower s = "blocker") := by
    intro hc
    rcases hc with hc | hc <;> exact h (by simp [hc])
  have n2 : ¬(jsLower s = "high" ∨ jsLower s = "major") := by
    intro hc
    rcases hc with hc | hc <;> exact h (by simp [hc])
  have n3 : ¬(jsLower s = "medium" ∨ jsLower s = "moderate") := by
    intro hc
    rcases hc with hc | hc <;> exact h (by simp [hc])
  have n4 : ¬(jsLower s = "low" ∨ jsLower s = "minor" ∨
      jsLower s = "trivial") := by
    intro hc
    rcases hc with hc | hc | hc <;> exact h (by simp [hc])
  have n5 : ¬(s ∈ (["critical", "high", "medium", "low"] :
      List String)) := by
    intro hc
    exact h (enum_lower_mem s hc)
  unfold mapSeverity
  rw [if_neg n1, if_neg n2, if_neg n3, if_neg n4, if_pos n5]

end Pipeline

namespace Pipeline

theorem fixFinding_sets_severity {fs : List (String × JVal)} {f2 : JVal}
    {s : String} (hf : fixFinding (.obj fs) = some f2)
    (hsev : jget (.obj fs) "severity" = some (.str s)) (hne : s ≠ "") :
    jget f2 "severity" = some (.str (mapSeverity s)) := by
  unfold fixFinding at hf
  dsimp only at hf
  obtain ⟨f1, hc, hf⟩ := obind_some hf
  obtain ⟨f2mid, hs, hev⟩ := obind_some hf
  have hp1 : jget f1 "severity" = jget (.obj fs) "severity" :=
    fixFinding_cat_step_pres hc "severity" (by decide)
  rw [hp1, hsev] at hs
  rw [if_pos (by simp [truthyOpt, truthy, hne])] at hs
  have hmid : jget f2mid "severity" = some (.str (mapSeverity s)) :=
    jget_jset_self hs
  rw [fixFinding_ev_step_pres hev "severity" (by decide), hmid]

theorem fixFinding_sets_category {fs : List (String × JVal)} {f2 : JVal}
    {c : String} (hf : fixFinding (.obj fs) = some f2)
    (hcat : jget (.obj fs) "category" = some (.str c)) (hne : c ≠ "") :
    jget f2 "category" = some (.str (mapCategory c)) := by
  unfold fixFinding at hf
  dsimp only at hf
  obtain ⟨f1, hc, hf⟩ := obind_some hf
  obtain ⟨f2mid, hs, hev⟩ := obind_some hf
  rw [hcat] at hc
  rw [if_pos (by simp [truthyOpt, truthy, hne])] at hc
  have h1 : jget f1 "category" = some (.str (mapCategory c)) :=
    jget_jset_self hc
  have h2 : jget f2mid "category" = some (.str (mapCategory c)) := by
    rw [fixFinding_sev_step_pres hs "category" (by decide), h1]
  rw [fixFinding_ev_step_pres hev "category" (by decide), h2]

/-- Counterexample for C9: the claim says every finding's severity and
category lie in the fixed enumerations after normalization; a finding
that simply lacks those fields passes through normalization with them
still absent — absence is not mapped to any default. -/
theorem missing_severity_not_defaulted :
    (mainStdin (executorChildEnv envT)
        "\x7b\"findings\":[\x7b\"message\":\"x\"\x7d]\x7d").bind
      (fun r => jget r "findings") =
      some (.arr [.obj [("message", .str "x")]]) ∧
    jget (.obj [("message", .str "x")]) "severity" = none ∧
    jget (.obj [("message", .str "x")]) "category" = none :=
  ⟨rfl, rfl, rfl⟩

/-- C9 (amended): whenever a finding carries a (nonempty string)
severity, normalization maps it into \x7bcritical, high, medium, low\x7d,
with every unrecognized value sent to "low"; likewise a present
category is mapped into the fixed category enumeration with
unrecognized values sent to the catch-all "style".  A finding lacking
the field keeps it absent (and a truthy non-string value throws,
failing the whole normalization), rather than receiving a default. -/
theorem severity_category_enum_spec :
    (∀ s : String, mapSeverity s ∈ (["critical", "high", "medium",
      "low"] : List String)) ∧
    (∀ s : String, mapCategory s ∈ (["security", "correctness",
      "performance", "testing", "architecture", "style",
      "maintainability", "docs"] : List String)) ∧
    (∀ s : String, jsLower s ∉ (["critical", "blocker", "high", "major",
      "medium", "moderate", "low", "minor", "trivial"] : List String) →
      mapSeverity s = "low") ∧
    (∀ (fs : List (String × JVal)) (f2 : JVal) (s : String),
      fixFinding (.obj fs) = some f2 →
      jget (.obj fs) "severity" = some (.str s) → s ≠ "" →
      jget f2 "severity" = some (.str (mapSeverity s))) ∧
    (∀ (fs : List (String × JVal)) (f2 : JVal) (c : String),
      fixFinding (.obj fs) = some f2 →
      jget (.obj fs) "category" = some (.str c) → c ≠ "" →
      jget f2 "category" = some (.str (mapCategory c))) :=
  ⟨mapSeverity_mem, mapCategory_mem, mapSeverity_unrecognized,
   fun _ _ _ hf hs hn => fixFinding_sets_severity hf hs hn,
   fun _ _ _ hf hc hn => fixFinding_sets_category hf hc hn⟩

/-- Witness for C9: the unrecognized severity "catastrophic" maps to
"low", and a finding reporting severity "BLOCKER" is normalized to
"critical". -/
theorem severity_category_enum_spec_witness :
    mapSeverity "catastrophic" = "low" ∧
    jget (.obj [("severity", .str "critical")]) "severity" =
      some (.str (mapSeverity "BLOCKER")) :=
  ⟨severity_category_enum_spec.2.2.1 "catastrophic" (by decide),
   severity_category_enum_spec.2.2.2.1 [("severity", .str "BLOCKER")]
     (.obj [("severity", .str "critical")]) "BLOCKER" rfl rfl
     (by decide)⟩

end Pipeline

namespace Pipeline

/-- The must-fix union of aggregate-reviews.mjs lines 133-137: flatten
all findings of the included reports (tagging each with its tool) and
filter the blocking ones; `none` models the crash on a truthy
non-array `findings`. -/
def aggMustFix (validate : JVal → Bool) (now : String)
    (claude codex gemini : Slot) : Option (List JVal) :=
  (flatUnion findingsWithTool
    (collectSlots validate now claude codex gemini).2).map
      (List.filter isMustFix)

/-- A well-formed, ready report slot used in concrete aggregate runs. -/
def okSlotC1 : Slot :=
  ⟨some "\x7b\"tool\":\"claude-code\",\"findings\":[],\"exit_criteria\":\x7b\"ready_for_pr\":true\x7d\x7d",
   none⟩

/-- Counterexample for C1: the claim says the gate is "pass" or
"fail" for every set of three expected reports; a report whose
`findings` field is the (truthy, non-array) number 1 survives the
fix-ups and schema warning, and the must-fix flattening then calls
`.map` on a non-array — the aggregator crashes before ever computing
or writing a gate value, so neither "pass" nor "fail" is produced. -/
theorem aggregate_crash_no_gate :
    aggregateGate (fun _ => true) "T0"
      ⟨some "\x7b\"findings\": 1\x7d", none⟩ okSlotC1 okSlotC1 = none :=
  rfl

/-- C1 (amended): whenever the aggregator completes (it crashes when
an included report carries a truthy non-array findings or assumptions
field), the gate it produces is "pass" exactly when zero errors were
recorded, the must-fix union is empty, and all three included reports
declare `exit_criteria.ready_for_pr === true`; in every completing
other case it is "fail" — in particular any nonempty must-fix union
forces "fail" regardless of the other reports. -/
theorem aggregate_gate_iff (validate : JVal → Bool) (now : String)
    (s1 s2 s3 : Slot) (g : String)
    (h : aggregateGate validate now s1 s2 s3 = some g) :
    (g = "pass" ↔
      (collectSlots validate now s1 s2 s3).1 = [] ∧
      aggMustFix validate now s1 s2 s3 = some [] ∧
      allReady (collectSlots validate now s1 s2 s3).2 = true) ∧
    (∀ mf, aggMustFix validate now s1 s2 s3 = some mf → mf ≠ [] →
      g = "fail") := by
  unfold aggregateGate at h
  dsimp only at h
  unfold aggMustFix
  cases hf : flatUnion findingsWithTool
      (collectSlots validate now s1 s2 s3).2 with
  | none => rw [hf] at h; cases h
  | some af =>
      rw [hf] at h
      cases ha : flatUnion assumptionsWithTool
          (collectSlots validate now s1 s2 s3).2 with
      | none => rw [ha] at h; cases h
      | some as2 =>
          rw [ha] at h
          have hg : g = (if (collectSlots validate now s1 s2 s3).1.isEmpty ∧
              (af.filter isMustFix).isEmpty ∧
              allReady (collectSlots validate now s1 s2 s3).2 then
                "pass" else "fail") := (Option.some.inj h).symm
          by_cases hcond : (collectSlots validate now s1 s2 s3).1.isEmpty ∧
              (af.filter isMustFix).isEmpty ∧
              allReady (collectSlots validate now s1 s2 s3).2
          · rw [if_pos hcond] at hg
            constructor
            · rw [hg]
              simp only [true_iff]
              refine ⟨?_, ?_, hcond.2.2⟩
              · exact List.isEmpty_iff.mp hcond.1
              · simp only [Option.map_some']
                rw [List.isEmpty_iff.mp hcond.2.1]
            · intro mf hmf hne
              rw [Option.map_some'] at hmf
              have : af.filter isMustFix = mf := Option.some.inj hmf
              rw [← this] at hne
              exact absurd (List.isEmpty_iff.mp hcond.2.1) hne
          · rw [if_neg hcond] at hg
            constructor
            · rw [hg]
              constructor
              · intro hc
                exact absurd hc (by decide)
              · intro hc
                exfalso
                apply hcond
                refine ⟨List.isEmpty_iff.mpr hc.1, ?_, hc.2.2⟩
                have : af.filter isMustFix = [] := by
                  have := hc.2.1
                  rw [Option.map_some'] at this
                  exact Option.some.inj this
                exact List.isEmpty_iff.mpr this
            · intro mf hmf hne
              exact hg

/-- Witness for C1: three ready, finding-free, schema-valid reports
produce the gate "pass", and the iff characterizes it. -/
theorem aggregate_gate_iff_witness :
    ("pass" = "pass" ↔
      (collectSlots (fun _ => true) "T0" okSlotC1 okSlotC1 okSlotC1).1 =
        [] ∧
      aggMustFix (fun _ => true) "T0" okSlotC1 okSlotC1 okSlotC1 =
        some [] ∧
      allReady
        (collectSlots (fun _ => true) "T0" okSlotC1 okSlotC1
          okSlotC1).2 = true) :=
  (aggregate_gate_iff (fun _ => true) "T0" okSlotC1 okSlotC1 okSlotC1
    "pass" rfl).1

end Pipeline
